/-
  Verification development for the OneTrainer fine-tune loading and
  Stable Diffusion forward-pass code:
    modules/model/StableDiffusionModel.py
    modules/modelLoader/FineTuneModelLoader.py

  The Python code is shallowly embedded: tensors are represented symbolically,
  the random number generators are modelled as explicit state, filesystem and
  external-library effects are supplied as explicit environments, and Python
  exceptions are modelled with Except/Option results.  Definitions follow the
  source line by line; places where a missing repository file is modelled from
  the specification are marked in their doc comments.
-/
import Mathlib

set_option maxHeartbeats 1000000

/-- Modelled from the spec: `modules/util/enum/ModelType.py` is not among the
provided sources.  The spec (section 3) describes an enumerated tag with the
capability flags `hasConditioningImageInput`, `hasMaskInput`, `hasDepthInput`;
section 4.4 lists five known variants, and states that model types outside the
five known variants exist and have no built-in default config.  The
constructor `other` stands for any such unknown variant. -/
inductive ModelType where
  | STABLE_DIFFUSION_15
  | STABLE_DIFFUSION_15_INPAINTING
  | STABLE_DIFFUSION_20
  | STABLE_DIFFUSION_20_INPAINTING
  | STABLE_DIFFUSION_20_DEPTH
  | other
deriving DecidableEq

/-- Modelled from the spec: the inpainting variants take a conditioning image. -/
def ModelType.has_conditioning_image_input : ModelType → Bool
  | .STABLE_DIFFUSION_15_INPAINTING => true
  | .STABLE_DIFFUSION_20_INPAINTING => true
  | _ => false

/-- Modelled from the spec: the inpainting variants take a mask. -/
def ModelType.has_mask_input : ModelType → Bool
  | .STABLE_DIFFUSION_15_INPAINTING => true
  | .STABLE_DIFFUSION_20_INPAINTING => true
  | _ => false

/-- Modelled from the spec: the depth variant takes a depth input. -/
def ModelType.has_depth_input : ModelType → Bool
  | .STABLE_DIFFUSION_20_DEPTH => true
  | _ => false

/-- Modelled from the spec: `modules/util/TrainProgress.py` is not among the
provided sources; the spec (section 3) describes the four counters, and the
default-constructed value `TrainProgress()` is the all-zero state. -/
structure TrainProgress where
  epoch : Nat
  epoch_step : Nat
  epoch_sample : Nat
  global_step : Nat
deriving DecidableEq

/-- Modelled from the spec: the default zero state of `TrainProgress()`. -/
def TrainProgress.zero : TrainProgress := ⟨0, 0, 0, 0⟩

/- Opaque numeric collaborators (section 1 of the spec: the network
architectures themselves are external): each carries an identity, plus the
parameters that the embedded code actually reads. -/

structure CLIPTokenizer where
  id : Nat
deriving DecidableEq

/-- The noise scheduler: the embedded code reads `config[num_train_timesteps]`
(line 108) and its identity is carried into symbolic tensor values. -/
structure DDPMScheduler where
  id : Nat
  num_train_timesteps : Nat
deriving DecidableEq

structure CLIPTextModel where
  id : Nat
  dtype : String
deriving DecidableEq

/-- The autoencoder: the embedded code reads `scaling_factor` (lines 88, 94,
130, ...). -/
structure AutoencoderKL where
  id : Nat
  scaling_factor : ℚ
  dtype : String
deriving DecidableEq

structure UNet2DConditionModel where
  id : Nat
  dtype : String
deriving DecidableEq

structure DPTImageProcessor where
  id : Nat
deriving DecidableEq

structure DPTForDepthEstimation where
  id : Nat
deriving DecidableEq

structure Optimizer where
  id : Nat
deriving DecidableEq

/-- The opaque optimizer-state blob loaded by `torch.load` (line 35). -/
structure OptimizerStateDict where
  id : Nat
deriving DecidableEq

def CLIPTextModel.toDtype (m : CLIPTextModel) (d : String) : CLIPTextModel := ⟨m.id, d⟩

def AutoencoderKL.toDtype (m : AutoencoderKL) (d : String) : AutoencoderKL := ⟨m.id, m.scaling_factor, d⟩

def UNet2DConditionModel.toDtype (m : UNet2DConditionModel) (d : String) : UNet2DConditionModel := ⟨m.id, d⟩

/-- The model bundle of `StableDiffusionModel` (lines 18-32): sub-networks,
scheduler, optional depth components, optimizer state and train progress. -/
structure StableDiffusionModel where
  model_type : ModelType
  tokenizer : CLIPTokenizer
  noise_scheduler : DDPMScheduler
  text_encoder : CLIPTextModel
  vae : AutoencoderKL
  unet : UNet2DConditionModel
  image_depth_processor : Option DPTImageProcessor
  depth_estimator : Option DPTForDepthEstimation
  optimizer : Option Optimizer
  optimizer_state_dict : Option OptimizerStateDict
  train_progress : TrainProgress
deriving DecidableEq

/-- `StableDiffusionModel.__init__` (lines 34-59): stores the given
components, always sets `optimizer = None`, and stores the given optimizer
state dict and train progress (whose Python defaults are `None` and
`TrainProgress()`; call sites of this embedding pass those explicitly). -/
def StableDiffusionModel.make (model_type : ModelType) (tokenizer : CLIPTokenizer)
    (noise_scheduler : DDPMScheduler) (text_encoder : CLIPTextModel)
    (vae : AutoencoderKL) (unet : UNet2DConditionModel)
    (image_depth_processor : Option DPTImageProcessor)
    (depth_estimator : Option DPTForDepthEstimation)
    (optimizer_state_dict : Option OptimizerStateDict)
    (train_progress : TrainProgress) : StableDiffusionModel :=
  ⟨model_type, tokenizer, noise_scheduler, text_encoder, vae, unet,
    image_depth_processor, depth_estimator, none, optimizer_state_dict, train_progress⟩

/-- `TrainArgs`: the configuration fields read by the embedded code
(spec section 3, TrainConfiguration). -/
structure TrainArgs where
  model_type : ModelType
  train_text_encoder : Bool
  offset_noise_weight : ℚ
  max_noising_strength : ℚ
  train_device : String
  train_dtype : String
  debug_mode : Bool
  debug_dir : String
deriving DecidableEq

/-- A torch random generator; `torch.Generator(device)` starts in an ambient
state and `manual_seed` (line 97) replaces that state by the seed. -/
structure TorchGenerator where
  state : Nat
deriving DecidableEq

/-- `generator.manual_seed(seed)` discards the prior generator state. -/
def TorchGenerator.manual_seed (_g : TorchGenerator) (seed : Nat) : TorchGenerator := ⟨seed⟩

/-- Symbolic tensor values.  Each constructor records one tensor-producing
operation of the source, keyed by the identity of the network that produced
it where applicable. `randnG seed idx sh` is the idx-th standard-normal draw
of shape `sh` from the generator seeded with `seed`. -/
inductive Tensor where
  | input : String → List Nat → Tensor
  | randnG : Nat → Nat → List Nat → Tensor
  | smul : ℚ → Tensor → Tensor
  | sdiv : Tensor → ℚ → Tensor
  | add : Tensor → Tensor → Tensor
  | sub : Tensor → Tensor → Tensor
  | mulT : Tensor → Tensor → Tensor
  | divT : Tensor → Tensor → Tensor
  | sqrtT : Tensor → Tensor
  | oneSub : Tensor → Tensor
  | alphasCumprodAt : Nat → List Nat → Tensor
  | flattenReshape : Tensor → Tensor
  | addNoise : Nat → Tensor → Tensor → List Nat → Tensor
  | textEnc : Nat → Tensor → Tensor
  | concat3 : Tensor → Tensor → Tensor → Tensor
  | unetOut : Nat → Tensor → List Nat → Tensor → Tensor
  | unetOutDepth : Nat → Tensor → List Nat → Tensor → Tensor → Tensor
  | decode : Nat → Tensor → Tensor
  | clamp : ℚ → ℚ → Tensor → Tensor
deriving DecidableEq

/-- One broadcast dimension, following the torch rule: equal sizes or a
size-1 side. -/
def broadcastDim (x y : Nat) : Option Nat :=
  if x = y then some x else if x = 1 then some y else if y = 1 then some x else none

/-- Broadcast of two reversed shape lists (aligned from the right). -/
def broadcastRev : List Nat → List Nat → Option (List Nat)
  | [], ys => some ys
  | xs, [] => some xs
  | x :: xs, y :: ys =>
    match broadcastDim x y, broadcastRev xs ys with
    | some d, some rest => some (d :: rest)
    | _, _ => none

/-- Torch broadcast of two shapes. -/
def broadcastShape (xs ys : List Nat) : Option (List Nat) :=
  (broadcastRev xs.reverse ys.reverse).map List.reverse

/-- Static shape of a symbolic tensor, where the source needs it: batch
inputs carry their shape, random draws have the requested shape, scalar
multiplication, division and clamping preserve shape, elementwise binary
operations broadcast.  Shapes of external network outputs are unknown
(`none`); the embedded source never queries them. -/
def Tensor.shape : Tensor → Option (List Nat)
  | .input _ sh => some sh
  | .randnG _ _ sh => some sh
  | .smul _ t => t.shape
  | .sdiv t _ => t.shape
  | .clamp _ _ t => t.shape
  | .add a b =>
    match a.shape, b.shape with
    | some x, some y => broadcastShape x y
    | _, _ => none
  | .sub a b =>
    match a.shape, b.shape with
    | some x, some y => broadcastShape x y
    | _, _ => none
  | .mulT a b =>
    match a.shape, b.shape with
    | some x, some y => broadcastShape x y
    | _, _ => none
  | .divT a b =>
    match a.shape, b.shape with
    | some x, some y => broadcastShape x y
    | _, _ => none
  | _ => none

/-- The training batch (spec section 3): a mapping whose keys are present or
absent; an absent key read is a KeyError. -/
structure Batch where
  latent_image : Option Tensor
  latent_conditioning_image : Option Tensor
  latent_mask : Option Tensor
  latent_depth : Option Tensor
  tokens : Option Tensor
deriving DecidableEq

/-- Dictionary-style access to the batch. -/
def Batch.get (b : Batch) (k : String) : Option Tensor :=
  if k = "latent_image" then b.latent_image
  else if k = "latent_conditioning_image" then b.latent_conditioning_image
  else if k = "latent_mask" then b.latent_mask
  else if k = "latent_depth" then b.latent_depth
  else if k = "tokens" then b.tokens
  else none

/-- Failures of the forward pass: a missing batch key (Python KeyError), a
shape mismatch (IndexError/RuntimeError), an empty `randint` range
(RuntimeError from line 106 when high = 0), a failed debug image write
(OSError from `image.save`/`os.makedirs`), and use of a `None` tensor
(TypeError). -/
inductive PredictErr where
  | keyError : String → PredictErr
  | shapeError : PredictErr
  | emptyTimestepRange : PredictErr
  | saveError : String → PredictErr
  | noneTypeError : PredictErr
deriving DecidableEq

/-- Observable effects of a `predict` call: batch key reads, generator
normal draws (with their shape), the global-RNG integer draw (with the drawn
timesteps), the denoiser invocation, and debug image writes. -/
inductive Eff where
  | readKey : String → Eff
  | randn : List Nat → Eff
  | randint : List Nat → Eff
  | unet : Eff
  | save : String → Eff
deriving DecidableEq

/-- Equality of Except results is decidable componentwise. -/
instance {e a : Type} [DecidableEq e] [DecidableEq a] : DecidableEq (Except e a)
  | .ok x, .ok y =>
    if h : x = y then .isTrue (by rw [h]) else .isFalse (by simp [h])
  | .ok _, .error _ => .isFalse (by simp)
  | .error _, .ok _ => .isFalse (by simp)
  | .error x, .error y =>
    if h : x = y then .isTrue (by rw [h]) else .isFalse (by simp [h])

/-- A step of the forward pass: an Except result together with the effect
trace produced so far (Python exceptions propagate, aborting the call). -/
abbrev PStep (α : Type) : Type := Except PredictErr α × List Eff

/-- Sequencing of forward-pass steps: an error aborts, traces concatenate. -/
def PStep.bind {α β : Type} (x : PStep α) (f : α → PStep β) : PStep β :=
  match x.1 with
  | .error e => (.error e, x.2)
  | .ok a => ((f a).1, x.2 ++ (f a).2)

/-- `batch[key]`: returns the value or raises KeyError. -/
def PStep.readBatchKey (v : Option Tensor) (key : String) : PStep Tensor :=
  match v with
  | some t => (.ok t, [.readKey key])
  | none => (.error (.keyError key), [.readKey key])

/-- Python `int()` truncation toward zero on a real value (modelled on ℚ). -/
def pyInt (q : ℚ) : Int := if 0 ≤ q then ⌊q⌋ else ⌈q⌉

/-- One raw draw of the process-global torch RNG (an external collaborator;
any concrete stream suffices for the embedding, what matters is that it is a
function of the ambient global state and the draw index). -/
def lcgMix (g i : Nat) : Nat := (g * 1103515245 + i * 12345 + 12345) % 2 ^ 31

/-- `torch.randint(low=0, high, size=(n,))` without a generator argument
(line 106): n uniform draws in [0, high) from the process-global RNG in
state g. -/
def torchGlobalRandint (g : Nat) (high : Nat) (n : Nat) : List Nat :=
  (List.range n).map fun i => lcgMix g i % high

/-- Whether the first character list is a prefix of the second. -/
def charsStart : List Char → List Char → Bool
  | [], _ => true
  | _ :: _, [] => false
  | a :: as, b :: bs => a = b && charsStart as bs

/-- Join of a directory and a file name, following `os.path.join` on posix
paths. -/
def pathJoin (a b : String) : String :=
  if charsStart "/".toList b.toList then b
  else if a = "" then b
  else if charsStart "/".toList.reverse a.toList.reverse then a ++ b
  else a ++ "/" ++ b

/-- Read of `scaled_latent_image.shape` (a real tensor always has one; a
symbolic value without a determined shape is a modelling error, not a source
behaviour). -/
def getShape (t : Tensor) : PStep (List Nat) :=
  match t.shape with
  | some sh => (.ok sh, [])
  | none => (.error .shapeError, [])

/-- Lines 90-94 of `predict`: when the configured model type has a
conditioning image input, read `batch[latent_conditioning_image]` and scale
it by the autoencoder scaling factor; otherwise both stay `None`. -/
def readCond (model : StableDiffusionModel) (batch : Batch) (args : TrainArgs) :
    PStep (Option Tensor × Option Tensor) :=
  if args.model_type.has_conditioning_image_input then
    PStep.bind (PStep.readBatchKey batch.latent_conditioning_image "latent_conditioning_image")
      fun c => (.ok (some c, some (Tensor.smul model.vae.scaling_factor c)), [])
  else (.ok (none, none), [])

/-- Lines 99-104 of `predict`: with positive offset-noise weight, draw a
full-resolution normal tensor and a per-channel `(b, c, 1, 1)` normal tensor
from the same seeded generator, and sum them with the weight applied to the
offset part (the sum raises on a broadcast failure, and reading `shape[1]`
raises when the latent has fewer than two dimensions); otherwise draw a
single full-resolution normal tensor. -/
def drawLatentNoise (gs : Nat) (w : ℚ) (sh : List Nat) : PStep Tensor :=
  if 0 < w then
    let normal_noise := Tensor.randnG gs 0 sh
    match sh with
    | s0 :: s1 :: _ =>
      let offset_noise := Tensor.randnG gs 1 [s0, s1, 1, 1]
      let latent_noise := Tensor.add normal_noise (Tensor.smul w offset_noise)
      match latent_noise.shape with
      | some _ => (.ok latent_noise, [.randn sh, .randn [s0, s1, 1, 1]])
      | none => (.error .shapeError, [.randn sh, .randn [s0, s1, 1, 1]])
    | _ => (.error .shapeError, [.randn sh])
  else (.ok (Tensor.randnG gs 0 sh), [.randn sh])

/-- Intermediate state after lines 86-104 of `predict`. -/
structure AOut where
  latent_image : Tensor
  scaled_latent_image : Tensor
  latent_conditioning_image : Option Tensor
  scaled_latent_conditioning_image : Option Tensor
  latentShape : List Nat
  latent_noise : Tensor
deriving DecidableEq

/-- Lines 86-104 of `predict`: read and scale the latent image, optionally
read and scale the conditioning image, create a fresh generator (ambient
state `generatorInit`) and seed it with the global step, then draw the
latent noise. -/
def stageA (model : StableDiffusionModel) (batch : Batch) (args : TrainArgs)
    (generatorInit : Nat) : PStep AOut :=
  PStep.bind (PStep.readBatchKey batch.latent_image "latent_image") fun latent_image =>
  let scaled_latent_image := Tensor.smul model.vae.scaling_factor latent_image
  PStep.bind (readCond model batch args) fun lc =>
  PStep.bind (getShape scaled_latent_image) fun sh =>
  let generator := TorchGenerator.manual_seed ⟨generatorInit⟩ model.train_progress.global_step
  PStep.bind (drawLatentNoise generator.state args.offset_noise_weight sh) fun latent_noise =>
  (.ok ⟨latent_image, scaled_latent_image, lc.1, lc.2, sh, latent_noise⟩, [])

/-- Lines 106-111 of `predict`: `torch.randint(low=0, high=int(T * s),
size=(shape[0],))` with NO generator argument, so the draw comes from the
process-global RNG in state `gRng`.  Reading `shape[0]` of a zero-dimensional
latent raises IndexError; a non-positive high raises RuntimeError. -/
def sampleGlobalTimestep (gRng : Nat) (T : Nat) (s : ℚ) (sh : List Nat) :
    PStep (List Nat) :=
  match sh with
  | [] => (.error .shapeError, [])
  | b0 :: _ =>
    let high := pyInt ((T : ℚ) * s)
    if high ≤ 0 then (.error .emptyTimestepRange, [])
    else
      let ts := torchGlobalRandint gRng high.toNat b0
      (.ok ts, [.randint ts])

/-- Lines 117-120 of `predict`: with both mask and conditioning inputs,
channel-concatenate noisy latent, mask and scaled conditioning image
(a `None` conditioning image would raise TypeError); otherwise the denoiser
input is the noisy latent alone. -/
def buildLatentInput (args : TrainArgs) (batch : Batch) (scaled_noisy : Tensor)
    (scaledCond : Option Tensor) : PStep Tensor :=
  if args.model_type.has_mask_input && args.model_type.has_conditioning_image_input then
    PStep.bind (PStep.readBatchKey batch.latent_mask "latent_mask") fun latent_mask =>
      match scaledCond with
      | some slc => (.ok (Tensor.concat3 scaled_noisy latent_mask slc), [])
      | none => (.error .noneTypeError, [])
  else (.ok scaled_noisy, [])

/-- Lines 122-125 of `predict`: run the denoiser, passing the depth latent
from the batch when the model type has a depth input. -/
def runUnet (model : StableDiffusionModel) (args : TrainArgs) (batch : Batch)
    (latent_input : Tensor) (timestep : List Nat) (text_out : Tensor) : PStep Tensor :=
  if args.model_type.has_depth_input then
    PStep.bind (PStep.readBatchKey batch.latent_depth "latent_depth") fun latent_depth =>
      (.ok (Tensor.unetOutDepth model.unet.id latent_input timestep text_out latent_depth), [.unet])
  else (.ok (Tensor.unetOut model.unet.id latent_input timestep text_out), [.unet])

/-- Intermediate state after lines 106-125 of `predict`. -/
structure BOut where
  timestep : List Nat
  scaled_noisy_latent_image : Tensor
  text_encoder_output : Tensor
  latent_input : Tensor
  predicted_latent_noise : Tensor
deriving DecidableEq

/-- Lines 106-125 of `predict`: sample the timesteps from the global RNG,
apply scheduler noise, run the text encoder on `batch[tokens]` (first output
element), build the denoiser input and run the denoiser. -/
def stageB (model : StableDiffusionModel) (batch : Batch) (args : TrainArgs)
    (gRng : Nat) (a : AOut) : PStep BOut :=
  PStep.bind (sampleGlobalTimestep gRng model.noise_scheduler.num_train_timesteps
      args.max_noising_strength a.latentShape) fun timestep =>
  let scaled_noisy := Tensor.addNoise model.noise_scheduler.id a.scaled_latent_image
      a.latent_noise timestep
  PStep.bind (PStep.readBatchKey batch.tokens "tokens") fun tokens =>
  let text_encoder_output := Tensor.textEnc model.text_encoder.id tokens
  PStep.bind (buildLatentInput args batch scaled_noisy a.scaled_latent_conditioning_image)
    fun latent_input =>
  PStep.bind (runUnet model args batch latent_input timestep text_encoder_output)
    fun predicted =>
  (.ok ⟨timestep, scaled_noisy, text_encoder_output, latent_input, predicted⟩, [])

/-- `StableDiffusionModel.__save_image` (lines 67-84): writes the tensor as
`<directory>/step-<step>-<name>.png` (the `[0]` row selection and the
[-1,1] to [0,1] rescale are image-codec details, out of scope per spec
section 1); a filesystem failure raises. -/
def save_image (saveOk : String → Bool) (_image_tensor : Tensor)
    (directory : String) (name : String) (step : Nat) : PStep Unit :=
  let path := pathJoin directory ("step-" ++ toString step ++ "-" ++ name ++ ".png")
  if saveOk path then (.ok (), [.save path]) else (.error (.saveError path), [.save path])

/-- Lines 127-167 of `predict`: the debug visualization block (under
`torch.no_grad` in the source, which does not affect the computed values).
Decodes and writes five images, and a sixth conditioning image when the
model instance (note: `self.model_type`, line 164, not `args.model_type`)
has a conditioning image input.  The block has NO exception handler: a
failed write aborts the call. -/
def debugPass (model : StableDiffusionModel) (args : TrainArgs)
    (saveOk : String → Bool) (a : AOut) (b : BOut) : PStep Unit :=
  let sf := model.vae.scaling_factor
  let dir := args.debug_dir ++ "/training_batches"
  let gs := model.train_progress.global_step
  let noise := Tensor.clamp (-1) 1 (Tensor.decode model.vae.id (Tensor.sdiv a.latent_noise sf))
  PStep.bind (save_image saveOk noise dir "1-noise" gs) fun _ =>
  let predicted_noise := Tensor.clamp (-1) 1
      (Tensor.decode model.vae.id (Tensor.sdiv b.predicted_latent_noise sf))
  PStep.bind (save_image saveOk predicted_noise dir "2-predicted_noise" gs) fun _ =>
  let noisy_image := Tensor.clamp (-1) 1
      (Tensor.decode model.vae.id (Tensor.sdiv b.scaled_noisy_latent_image sf))
  PStep.bind (save_image saveOk noisy_image dir "3-noisy_image" gs) fun _ =>
  let sqrt_alpha_prod := Tensor.flattenReshape
      (Tensor.sqrtT (Tensor.alphasCumprodAt model.noise_scheduler.id b.timestep))
  let sqrt_one_minus_alpha_prod := Tensor.flattenReshape
      (Tensor.sqrtT (Tensor.oneSub (Tensor.alphasCumprodAt model.noise_scheduler.id b.timestep)))
  let scaled_predicted_latent_image := Tensor.divT
      (Tensor.sub b.scaled_noisy_latent_image
        (Tensor.mulT b.predicted_latent_noise sqrt_one_minus_alpha_prod))
      sqrt_alpha_prod
  let predicted_image := Tensor.clamp (-1) 1
      (Tensor.decode model.vae.id (Tensor.sdiv scaled_predicted_latent_image sf))
  PStep.bind (save_image saveOk predicted_image dir "4-predicted_image" gs) fun _ =>
  let image := Tensor.clamp (-1) 1 (Tensor.decode model.vae.id a.latent_image)
  PStep.bind (save_image saveOk image dir "5-image" gs) fun _ =>
  if model.model_type.has_conditioning_image_input then
    match a.latent_conditioning_image with
    | some ci =>
      save_image saveOk (Tensor.clamp (-1) 1 (Tensor.decode model.vae.id ci))
        dir "6-conditioning_image" gs
    | none => (.error .noneTypeError, [])
  else (.ok (), [])

/-- `StableDiffusionModel.predict` (lines 86-169).  `generatorInit` is the
ambient state a fresh `torch.Generator` would have before `manual_seed`;
`gRng` is the state of the process-global torch RNG (used by the ungated
`randint` of line 106); `saveOk` tells which debug image writes succeed.
Returns `(predicted_latent_noise, latent_noise)` with the effect trace. -/
def predict (model : StableDiffusionModel) (batch : Batch) (args : TrainArgs)
    (generatorInit : Nat) (gRng : Nat) (saveOk : String → Bool) :
    PStep (Tensor × Tensor) :=
  PStep.bind (stageA model batch args generatorInit) fun a =>
  PStep.bind (stageB model batch args gRng a) fun b =>
  PStep.bind (if args.debug_mode then debugPass model args saveOk a b else (.ok (), []))
    fun _ =>
  (.ok (b.predicted_latent_noise, a.latent_noise), [])

/-- `os.path.splitext(p)[0]`: the path without its final extension, following
the Python rule (the rightmost dot after the rightmost separator splits, but
leading dots of the base name do not count). -/
def splitextRoot (p : String) : String :=
  let cs := p.toList
  let sepIdx : Int :=
    match cs.reverse.indexOf? '/' with
    | none => -1
    | some i => (cs.length : Int) - 1 - (i : Int)
  let dotIdx : Int :=
    match cs.reverse.indexOf? '.' with
    | none => -1
    | some i => (cs.length : Int) - 1 - (i : Int)
  if sepIdx < dotIdx then
    let base := (cs.drop (sepIdx + 1).toNat).take (dotIdx - sepIdx - 1).toNat
    if base.any (fun c => c ≠ '.') then String.mk (cs.take dotIdx.toNat) else p
  else p

/-- The pipeline object returned by the external
`download_from_original_stable_diffusion_ckpt` conversion: the embedded code
reads its tokenizer, scheduler, text encoder, vae and unet (lines 131-135). -/
structure CkptPipeline where
  tokenizer : CLIPTokenizer
  scheduler : DDPMScheduler
  text_encoder : CLIPTextModel
  vae : AutoencoderKL
  unet : UNet2DConditionModel
deriving DecidableEq

/-- The environment of the loader: the outcome of every external effect the
loader performs, as a function of the paths and arguments the source passes.
A `none`/`false` outcome stands for a raised Python exception or a missing
file.  `downloadCkpt` takes the checkpoint path and the (possibly absent)
`original_config_file` argument, exactly as the source passes them. -/
structure LoaderEnv where
  readMetaTrainProgress : String → Option TrainProgress
  torchLoad : String → Option OptimizerStateDict
  tokenizerFromPretrained : String → String → Option CLIPTokenizer
  schedulerFromPretrained : String → String → Option DDPMScheduler
  textEncoderFromPretrained : String → String → String → Option CLIPTextModel
  vaeFromPretrained : String → String → String → Option AutoencoderKL
  unetFromPretrained : String → String → String → Option UNet2DConditionModel
  dptImageProcessorFromPretrained : String → String → Option DPTImageProcessor
  dptForDepthEstimationFromPretrained : String → String → Option DPTForDepthEstimation
  pathExists : String → Bool
  downloadCkpt : String → Option String → Option CkptPipeline

/-- `FineTuneModelLoader.__load_diffusers_model` (lines 44-96): loads each
sub-network from its named subfolder (text encoder, vae and unet in float32),
the depth components only when the model type has a depth input; any failure
is swallowed by the bare `except` and yields `None`.  On success the bundle
is constructed with the `__init__` defaults: no optimizer state dict and a
default `TrainProgress()`. -/
def FineTuneModelLoader.load_diffusers_model (env : LoaderEnv)
    (base_model_name : String) (model_type : ModelType) :
    Option StableDiffusionModel := do
  let tokenizer ← env.tokenizerFromPretrained base_model_name "tokenizer"
  let noise_scheduler ← env.schedulerFromPretrained base_model_name "scheduler"
  let text_encoder ← env.textEncoderFromPretrained base_model_name "text_encoder" "float32"
  let vae ← env.vaeFromPretrained base_model_name "vae" "float32"
  let unet ← env.unetFromPretrained base_model_name "unet" "float32"
  let image_depth_processor ←
    if model_type.has_depth_input then
      (env.dptImageProcessorFromPretrained base_model_name "feature_extractor").map some
    else some none
  let depth_estimator ←
    if model_type.has_depth_input then
      (env.dptForDepthEstimationFromPretrained base_model_name "depth_estimator").map some
    else some none
  some (StableDiffusionModel.make model_type tokenizer noise_scheduler text_encoder vae unet
    image_depth_processor depth_estimator none TrainProgress.zero)

/-- `FineTuneModelLoader.__load_internal_model` (lines 19-42): reads
`meta.json` and its nested train-progress counters, delegates sub-network
loading to the diffusers strategy on the same directory (a `None` result
makes the subsequent attribute assignment raise, which the bare `except`
turns into `None`), loads the optimizer state blob, and overlays the
restored train progress and optimizer state onto the bundle. -/
def FineTuneModelLoader.load_internal_model (env : LoaderEnv)
    (base_model_name : String) (model_type : ModelType) :
    Option StableDiffusionModel := do
  let train_progress ← env.readMetaTrainProgress (pathJoin base_model_name "meta.json")
  let model ← FineTuneModelLoader.load_diffusers_model env base_model_name model_type
  let osd ← env.torchLoad (pathJoin (pathJoin base_model_name "optimizer") "optimizer.pt")
  some ⟨model.model_type, model.tokenizer, model.noise_scheduler, model.text_encoder,
    model.vae, model.unet, model.image_depth_processor, model.depth_estimator,
    model.optimizer, some osd, train_progress⟩

/-- `FineTuneModelLoader.__default_yaml_name` (lines 98-112): the fixed
five-entry table from model type to built-in config; any other model type
has no default. -/
def FineTuneModelLoader.default_yaml_name : ModelType → Option String
  | .STABLE_DIFFUSION_15 => some "resources/diffusers_model_config/v1-inference.yaml"
  | .STABLE_DIFFUSION_15_INPAINTING =>
      some "resources/diffusers_model_config/v1-inpainting-inference.yaml"
  | .STABLE_DIFFUSION_20 => some "resources/diffusers_model_config/v2-inference.yaml"
  | .STABLE_DIFFUSION_20_INPAINTING =>
      some "resources/diffusers_model_config/v2-inpainting-inference.yaml"
  | .STABLE_DIFFUSION_20_DEPTH =>
      some "resources/diffusers_model_config/v2-midas-inference.yaml"
  | _ => none

/-- Lines 117-121 of `__load_ckpt_model`: the config resolution - the sibling
`.yaml` file if it exists, else the sibling `.yml` if it exists, else the
built-in default for the model type (which may be absent). -/
def FineTuneModelLoader.resolve_yaml_name (env : LoaderEnv)
    (base_model_name : String) (model_type : ModelType) : Option String :=
  let y1 := splitextRoot base_model_name ++ ".yaml"
  if env.pathExists y1 then some y1
  else
    let y2 := splitextRoot base_model_name ++ ".yml"
    if env.pathExists y2 then some y2
    else FineTuneModelLoader.default_yaml_name model_type

/-- `FineTuneModelLoader.__load_ckpt_model` (lines 114-140): resolves the
config, hands the packed file and the resolved config (possibly absent) to
the external conversion, normalizes text encoder, vae and unet to float32,
and never populates the depth components; any failure is swallowed by the
bare `except` and yields `None`. -/
def FineTuneModelLoader.load_ckpt_model (env : LoaderEnv)
    (base_model_name : String) (model_type : ModelType) :
    Option StableDiffusionModel := do
  let yaml_name := FineTuneModelLoader.resolve_yaml_name env base_model_name model_type
  let pipeline ← env.downloadCkpt base_model_name yaml_name
  some (StableDiffusionModel.make model_type pipeline.tokenizer pipeline.scheduler
    (pipeline.text_encoder.toDtype "float32") (pipeline.vae.toDtype "float32")
    (pipeline.unet.toDtype "float32") none none none TrainProgress.zero)

/-- `FineTuneModelLoader.load` (lines 142-155): try the internal-checkpoint
strategy, then the bare-weights-directory strategy, then the single-file
strategy, returning the first successful bundle, else `None`.  Each strategy
is exception-isolated by its own bare `except` (modelled by the strategies
returning Option). -/
def FineTuneModelLoader.load (env : LoaderEnv) (base_model_name : String)
    (model_type : ModelType) : Option StableDiffusionModel :=
  match FineTuneModelLoader.load_internal_model env base_model_name model_type with
  | some model => some model
  | none =>
    match FineTuneModelLoader.load_diffusers_model env base_model_name model_type with
    | some model => some model
    | none =>
      match FineTuneModelLoader.load_ckpt_model env base_model_name model_type with
      | some model => some model
      | none => none

/-- The safety checker component (only ever passed as `None` here). -/
structure StableDiffusionSafetyChecker where
  id : Nat
deriving DecidableEq

/-- The feature extractor component of the inpainting and plain pipelines
(only ever passed as `None` here). -/
structure CLIPImageProcessor where
  id : Nat
deriving DecidableEq

/-- The three pipeline variants `create_pipeline` can build (lines 171-203),
with the constructor arguments the source passes. -/
inductive DiffusionPipeline where
  | stableDiffusionDepth2Img (vae : AutoencoderKL) (text_encoder : CLIPTextModel)
      (tokenizer : CLIPTokenizer) (unet : UNet2DConditionModel) (scheduler : DDPMScheduler)
      (depth_estimator : Option DPTForDepthEstimation)
      (feature_extractor : Option DPTImageProcessor)
  | stableDiffusionInpaint (vae : AutoencoderKL) (text_encoder : CLIPTextModel)
      (tokenizer : CLIPTokenizer) (unet : UNet2DConditionModel) (scheduler : DDPMScheduler)
      (safety_checker : Option StableDiffusionSafetyChecker)
      (feature_extractor : Option CLIPImageProcessor)
      (requires_safety_checker : Bool)
  | stableDiffusion (vae : AutoencoderKL) (text_encoder : CLIPTextModel)
      (tokenizer : CLIPTokenizer) (unet : UNet2DConditionModel) (scheduler : DDPMScheduler)
      (safety_checker : Option StableDiffusionSafetyChecker)
      (feature_extractor : Option CLIPImageProcessor)
      (requires_safety_checker : Bool)
deriving DecidableEq

/-- `StableDiffusionModel.create_pipeline` (lines 171-203): select the
variant by the model type capability flags, depth first, then conditioning
image, else plain; the conditioning and plain variants disable the safety
checker and attach no feature extractor.  A pure function of the bundle. -/
def StableDiffusionModel.create_pipeline (model : StableDiffusionModel) : DiffusionPipeline :=
  if model.model_type.has_depth_input then
    .stableDiffusionDepth2Img model.vae model.text_encoder model.tokenizer model.unet
      model.noise_scheduler model.depth_estimator model.image_depth_processor
  else if model.model_type.has_conditioning_image_input then
    .stableDiffusionInpaint model.vae model.text_encoder model.tokenizer model.unet
      model.noise_scheduler none none false
  else
    .stableDiffusion model.vae model.text_encoder model.tokenizer model.unet
      model.noise_scheduler none none false

theorem PStep.bind_eq_ok {α β : Type} {x : PStep α} {f : α → PStep β} {v : β}
    {tr : List Eff} (h : PStep.bind x f = (.ok v, tr)) :
    ∃ a tra trb, x = (.ok a, tra) ∧ f a = (.ok v, trb) ∧ tr = tra ++ trb := by
  obtain ⟨x1, x2⟩ := x
  cases x1 with
  | error e => simp [PStep.bind] at h
  | ok a =>
    rcases hfa : f a with ⟨f1, f2⟩
    simp only [PStep.bind, hfa] at h
    simp only [Prod.mk.injEq] at h
    obtain ⟨h1, h2⟩ := h
    exact ⟨a, x2, f2, rfl, by rw [hfa, h1], h2.symm⟩

theorem PStep.readBatchKey_eq_ok {v : Option Tensor} {key : String} {t : Tensor}
    {tr : List Eff} (h : PStep.readBatchKey v key = (.ok t, tr)) :
    v = some t ∧ tr = [.readKey key] := by
  cases v <;> simp_all [PStep.readBatchKey]

theorem getShape_eq_ok {t : Tensor} {sh : List Nat} {tr : List Eff}
    (h : getShape t = (.ok sh, tr)) : t.shape = some sh ∧ tr = [] := by
  unfold getShape at h
  rcases hs : t.shape with _ | sh2 <;> simp_all

theorem readCond_eq_ok {m : StableDiffusionModel} {b : Batch} {args : TrainArgs}
    {lc : Option Tensor × Option Tensor} {tr : List Eff}
    (h : readCond m b args = (.ok lc, tr)) :
    (args.model_type.has_conditioning_image_input = true ∧
      ∃ c, b.latent_conditioning_image = some c ∧
        lc = (some c, some (Tensor.smul m.vae.scaling_factor c)) ∧
        tr = [.readKey "latent_conditioning_image"]) ∨
    (args.model_type.has_conditioning_image_input = false ∧ lc = (none, none) ∧ tr = []) := by
  unfold readCond at h
  cases hc : args.model_type.has_conditioning_image_input with
  | false => right; simp_all
  | true =>
    left
    rw [hc] at h
    simp only [if_pos] at h
    obtain ⟨c, tra, trb, h1, h2, h3⟩ := PStep.bind_eq_ok h
    obtain ⟨hv, htr⟩ := PStep.readBatchKey_eq_ok h1
    simp only [Prod.mk.injEq, Except.ok.injEq] at h2
    exact ⟨rfl, c, hv, h2.1.symm, by simp [h3, htr, h2.2.symm]⟩

theorem drawLatentNoise_eq_ok {gs : Nat} {w : ℚ} {sh : List Nat} {t : Tensor}
    {tr : List Eff} (h : drawLatentNoise gs w sh = (.ok t, tr)) :
    (0 < w ∧ ∃ s0 s1 rest, sh = s0 :: s1 :: rest ∧
      t = Tensor.add (Tensor.randnG gs 0 sh)
          (Tensor.smul w (Tensor.randnG gs 1 [s0, s1, 1, 1])) ∧
      t.shape ≠ none ∧ tr = [.randn sh, .randn [s0, s1, 1, 1]]) ∨
    (w ≤ 0 ∧ t = Tensor.randnG gs 0 sh ∧ tr = [.randn sh]) := by
  unfold drawLatentNoise at h
  by_cases hw : 0 < w
  · left
    rw [if_pos hw] at h
    rcases sh with _ | ⟨s0, _ | ⟨s1, rest⟩⟩
    · simp at h
    · simp at h
    · refine ⟨hw, s0, s1, rest, rfl, ?_⟩
      rcases hsh : (Tensor.add (Tensor.randnG gs 0 (s0 :: s1 :: rest))
          (Tensor.smul w (Tensor.randnG gs 1 [s0, s1, 1, 1]))).shape with _ | sh2
      · simp only [hsh] at h; simp at h
      · simp only [hsh] at h
        simp only [Prod.mk.injEq, Except.ok.injEq] at h
        exact ⟨h.1.symm, by simp [← h.1, hsh], h.2.symm⟩
  · right
    rw [if_neg hw] at h
    simp only [Prod.mk.injEq, Except.ok.injEq] at h
    exact ⟨le_of_not_lt hw, h.1.symm, h.2.symm⟩

theorem stageA_eq_ok {m : StableDiffusionModel} {b : Batch} {args : TrainArgs}
    {g0 : Nat} {a : AOut} {tr : List Eff} (h : stageA m b args g0 = (.ok a, tr)) :
    b.latent_image = some a.latent_image ∧
    a.scaled_latent_image = Tensor.smul m.vae.scaling_factor a.latent_image ∧
    a.scaled_latent_image.shape = some a.latentShape ∧
    ∃ trc trn,
      readCond m b args = (.ok (a.latent_conditioning_image, a.scaled_latent_conditioning_image), trc) ∧
      drawLatentNoise m.train_progress.global_step args.offset_noise_weight a.latentShape
        = (.ok a.latent_noise, trn) ∧
      tr = .readKey "latent_image" :: (trc ++ trn) := by
  unfold stageA at h
  obtain ⟨limg, tr1, tr2, h1, h2, htr⟩ := PStep.bind_eq_ok h
  obtain ⟨hli, htr1⟩ := PStep.readBatchKey_eq_ok h1
  obtain ⟨lc, tr3, tr4, h3, h4, htr2⟩ := PStep.bind_eq_ok h2
  obtain ⟨sh, tr5, tr6, h5, h6, htr3⟩ := PStep.bind_eq_ok h4
  obtain ⟨hsh, htr5⟩ := getShape_eq_ok h5
  obtain ⟨noise, tr7, tr8, h7, h8, htr4⟩ := PStep.bind_eq_ok h6
  simp only [Prod.mk.injEq, Except.ok.injEq] at h8
  obtain ⟨ha, htr8⟩ := h8
  subst ha
  refine ⟨hli, rfl, hsh, tr3, tr7, h3, h7, ?_⟩
  subst htr htr1 htr2 htr3 htr4 htr5
  simp [← htr8]

theorem sampleGlobalTimestep_eq_ok {gRng T : Nat} {s : ℚ} {sh ts : List Nat}
    {tr : List Eff} (h : sampleGlobalTimestep gRng T s sh = (.ok ts, tr)) :
    ∃ b0 rest, sh = b0 :: rest ∧ 0 < pyInt ((T : ℚ) * s) ∧
      ts = torchGlobalRandint gRng (pyInt ((T : ℚ) * s)).toNat b0 ∧
      tr = [.randint ts] := by
  unfold sampleGlobalTimestep at h
  rcases sh with _ | ⟨b0, rest⟩
  · simp at h
  · dsimp only at h
    by_cases hh : pyInt ((T : ℚ) * s) ≤ 0
    · rw [if_pos hh] at h; simp at h
    · rw [if_neg hh] at h
      simp only [Prod.mk.injEq, Except.ok.injEq] at h
      exact ⟨b0, rest, rfl, lt_of_not_le hh, h.1.symm, by simp [← h.1, ← h.2]⟩

theorem buildLatentInput_eq_ok {args : TrainArgs} {b : Batch} {sn out : Tensor}
    {sc : Option Tensor} {tr : List Eff}
    (h : buildLatentInput args b sn sc = (.ok out, tr)) :
    ((args.model_type.has_mask_input && args.model_type.has_conditioning_image_input) = true ∧
      ∃ mk slc, b.latent_mask = some mk ∧ sc = some slc ∧
        out = Tensor.concat3 sn mk slc ∧ tr = [.readKey "latent_mask"]) ∨
    ((args.model_type.has_mask_input && args.model_type.has_conditioning_image_input) = false ∧
      out = sn ∧ tr = []) := by
  unfold buildLatentInput at h
  cases hc : args.model_type.has_mask_input && args.model_type.has_conditioning_image_input with
  | false => right; rw [hc] at h; simp_all
  | true =>
    left
    rw [hc] at h
    simp only [if_pos] at h
    obtain ⟨mk, tra, trb, h1, h2, h3⟩ := PStep.bind_eq_ok h
    obtain ⟨hv, htr⟩ := PStep.readBatchKey_eq_ok h1
    rcases sc with _ | slc
    · simp at h2
    · simp only [Prod.mk.injEq, Except.ok.injEq] at h2
      exact ⟨rfl, mk, slc, hv, rfl, h2.1.symm, by simp [h3, htr, ← h2.2]⟩

theorem runUnet_eq_ok {m : StableDiffusionModel} {args : TrainArgs} {b : Batch}
    {li : Tensor} {ts : List Nat} {txt out : Tensor} {tr : List Eff}
    (h : runUnet m args b li ts txt = (.ok out, tr)) :
    (args.model_type.has_depth_input = true ∧
      ∃ d, b.latent_depth = some d ∧
        out = Tensor.unetOutDepth m.unet.id li ts txt d ∧
        tr = [.readKey "latent_depth", .unet]) ∨
    (args.model_type.has_depth_input = false ∧
      out = Tensor.unetOut m.unet.id li ts txt ∧ tr = [.unet]) := by
  unfold runUnet at h
  cases hc : args.model_type.has_depth_input with
  | false => right; rw [hc] at h; simp_all
  | true =>
    left
    rw [hc] at h
    simp only [if_pos] at h
    obtain ⟨d, tra, trb, h1, h2, h3⟩ := PStep.bind_eq_ok h
    obtain ⟨hv, htr⟩ := PStep.readBatchKey_eq_ok h1
    simp only [Prod.mk.injEq, Except.ok.injEq] at h2
    exact ⟨rfl, d, hv, h2.1.symm, by simp [h3, htr, ← h2.2]⟩

theorem stageB_eq_ok {m : StableDiffusionModel} {b : Batch} {args : TrainArgs}
    {gRng : Nat} {a : AOut} {bo : BOut} {tr : List Eff}
    (h : stageB m b args gRng a = (.ok bo, tr)) :
    ∃ trl tru,
      sampleGlobalTimestep gRng m.noise_scheduler.num_train_timesteps
        args.max_noising_strength a.latentShape = (.ok bo.timestep, [.randint bo.timestep]) ∧
      bo.scaled_noisy_latent_image
        = Tensor.addNoise m.noise_scheduler.id a.scaled_latent_image a.latent_noise bo.timestep ∧
      (∃ tok, b.tokens = some tok ∧
        bo.text_encoder_output = Tensor.textEnc m.text_encoder.id tok) ∧
      buildLatentInput args b bo.scaled_noisy_latent_image a.scaled_latent_conditioning_image
        = (.ok bo.latent_input, trl) ∧
      runUnet m args b bo.latent_input bo.timestep bo.text_encoder_output
        = (.ok bo.predicted_latent_noise, tru) ∧
      tr = .randint bo.timestep :: .readKey "tokens" :: (trl ++ tru) := by
  unfold stageB at h
  obtain ⟨ts, tr1, tr2, h1, h2, htr⟩ := PStep.bind_eq_ok h
  obtain ⟨b0, rest, hsh, hpos, hts, htr1⟩ := sampleGlobalTimestep_eq_ok h1
  obtain ⟨tok, tr3, tr4, h3, h4, htr2⟩ := PStep.bind_eq_ok h2
  obtain ⟨htok, htr3⟩ := PStep.readBatchKey_eq_ok h3
  obtain ⟨li, tr5, tr6, h5, h6, htr4⟩ := PStep.bind_eq_ok h4
  obtain ⟨pr, tr7, tr8, h7, h8, htr5⟩ := PStep.bind_eq_ok h6
  simp only [Prod.mk.injEq, Except.ok.injEq] at h8
  obtain ⟨hb, htr8⟩ := h8
  subst hb
  refine ⟨tr5, tr7, ?_, rfl, ⟨tok, htok, rfl⟩, h5, h7, ?_⟩
  · rw [h1, htr1]
  · subst htr htr1 htr2 htr3 htr4 htr5
    simp [← htr8]

theorem predict_eq_ok {m : StableDiffusionModel} {b : Batch} {args : TrainArgs}
    {g0 gr : Nat} {sv : String → Bool} {p n : Tensor} {tr : List Eff}
    (h : predict m b args g0 gr sv = (.ok (p, n), tr)) :
    ∃ a trA bo trB trD,
      stageA m b args g0 = (.ok a, trA) ∧
      stageB m b args gr a = (.ok bo, trB) ∧
      p = bo.predicted_latent_noise ∧ n = a.latent_noise ∧
      tr = trA ++ trB ++ trD ∧
      ((args.debug_mode = true ∧ debugPass m args sv a bo = (.ok (), trD)) ∨
        (args.debug_mode = false ∧ trD = [])) := by
  unfold predict at h
  obtain ⟨a, tr1, tr2, h1, h2, htr⟩ := PStep.bind_eq_ok h
  obtain ⟨bo, tr3, tr4, h3, h4, htr2⟩ := PStep.bind_eq_ok h2
  obtain ⟨u, tr5, tr6, h5, h6, htr3⟩ := PStep.bind_eq_ok h4
  simp only [Prod.mk.injEq, Except.ok.injEq] at h6
  obtain ⟨⟨hp, hn⟩, htr6⟩ := h6
  refine ⟨a, tr1, bo, tr3, tr5, h1, h3, hp.symm, hn.symm, ?_, ?_⟩
  · subst htr htr2 htr3
    simp [← htr6]
  · cases hd : args.debug_mode with
    | true =>
      left
      rw [hd] at h5
      rcases u with ⟨⟩
      simp only [if_true] at h5
      exact ⟨rfl, h5⟩
    | false =>
      right
      rw [hd] at h5
      rcases u with ⟨⟩
      simp only [Bool.false_eq_true, if_false, Prod.mk.injEq, Except.ok.injEq] at h5
      exact ⟨rfl, h5.2.symm⟩

/-- The shapes of the generator normal draws recorded in a trace. -/
def randnShapes (tr : List Eff) : List (List Nat) :=
  tr.filterMap fun e => match e with | .randn sh => some sh | _ => none

/-- The timestep lists drawn by `randint` recorded in a trace. -/
def tracedRandint (tr : List Eff) : List (List Nat) :=
  tr.filterMap fun e => match e with | .randint ts => some ts | _ => none

theorem PStep.mem_bind_trace {α β : Type} {x : PStep α} {f : α → PStep β} {e : Eff}
    (h : e ∈ (PStep.bind x f).2) : e ∈ x.2 ∨ ∃ a, e ∈ (f a).2 := by
  rcases x with ⟨x1, x2⟩
  cases x1 with
  | error er => left; simpa [PStep.bind] using h
  | ok a =>
    rcases (by simpa [PStep.bind] using h : e ∈ x2 ∨ e ∈ (f a).2) with h2 | h2
    · exact Or.inl h2
    · exact Or.inr ⟨a, h2⟩

theorem PStep.readBatchKey_trace (v : Option Tensor) (key : String) :
    (PStep.readBatchKey v key).2 = [.readKey key] := by
  cases v <;> rfl

theorem getShape_trace (t : Tensor) : (getShape t).2 = [] := by
  unfold getShape
  rcases t.shape <;> rfl

theorem readCond_events {m : StableDiffusionModel} {b : Batch} {args : TrainArgs}
    {e : Eff} (h : e ∈ (readCond m b args).2) :
    args.model_type.has_conditioning_image_input = true ∧
      e = .readKey "latent_conditioning_image" := by
  unfold readCond at h
  cases hc : args.model_type.has_conditioning_image_input with
  | false => rw [hc] at h; simp at h
  | true =>
    rw [hc] at h
    simp only [if_pos] at h
    rcases PStep.mem_bind_trace h with h2 | ⟨c, h2⟩
    · rw [PStep.readBatchKey_trace] at h2; simp_all
    · simp at h2

theorem drawLatentNoise_events {gs : Nat} {w : ℚ} {sh : List Nat} {e : Eff}
    (h : e ∈ (drawLatentNoise gs w sh).2) : ∃ sh2, e = .randn sh2 := by
  unfold drawLatentNoise at h
  by_cases hw : 0 < w
  · rw [if_pos hw] at h
    rcases sh with _ | ⟨s0, _ | ⟨s1, rest⟩⟩
    · simp at h; exact ⟨_, h⟩
    · simp at h; exact ⟨_, h⟩
    · dsimp only at h
      rcases hs : (Tensor.add (Tensor.randnG gs 0 (s0 :: s1 :: rest))
          (Tensor.smul w (Tensor.randnG gs 1 [s0, s1, 1, 1]))).shape with _ | sh2 <;>
        rw [hs] at h <;> simp at h <;> rcases h with h | h <;> exact ⟨_, h⟩
  · rw [if_neg hw] at h
    simp at h
    exact ⟨_, h⟩

theorem stageA_events {m : StableDiffusionModel} {b : Batch} {args : TrainArgs}
    {g0 : Nat} {e : Eff} (h : e ∈ (stageA m b args g0).2) :
    e = .readKey "latent_image"
    ∨ (args.model_type.has_conditioning_image_input = true ∧
        e = .readKey "latent_conditioning_image")
    ∨ (∃ sh, e = .randn sh) := by
  unfold stageA at h
  rcases PStep.mem_bind_trace h with h2 | ⟨li, h2⟩
  · rw [PStep.readBatchKey_trace] at h2; simp_all
  · rcases PStep.mem_bind_trace h2 with h3 | ⟨lc, h3⟩
    · exact Or.inr (Or.inl (readCond_events h3))
    · rcases PStep.mem_bind_trace h3 with h4 | ⟨sh, h4⟩
      · rw [getShape_trace] at h4; simp at h4
      · rcases PStep.mem_bind_trace h4 with h5 | ⟨t, h5⟩
        · exact Or.inr (Or.inr (drawLatentNoise_events h5))
        · simp at h5

theorem sampleGlobalTimestep_events {gRng T : Nat} {s : ℚ} {sh : List Nat} {e : Eff}
    (h : e ∈ (sampleGlobalTimestep gRng T s sh).2) : ∃ ts, e = .randint ts := by
  unfold sampleGlobalTimestep at h
  rcases sh with _ | ⟨b0, rest⟩
  · simp at h
  · dsimp only at h
    by_cases hh : pyInt ((T : ℚ) * s) ≤ 0
    · rw [if_pos hh] at h; simp at h
    · rw [if_neg hh] at h; simp at h; exact ⟨_, h⟩

theorem buildLatentInput_events {args : TrainArgs} {b : Batch} {sn : Tensor}
    {sc : Option Tensor} {e : Eff} (h : e ∈ (buildLatentInput args b sn sc).2) :
    (args.model_type.has_mask_input && args.model_type.has_conditioning_image_input) = true ∧
      e = .readKey "latent_mask" := by
  unfold buildLatentInput at h
  cases hc : args.model_type.has_mask_input && args.model_type.has_conditioning_image_input with
  | false => rw [hc] at h; simp at h
  | true =>
    rw [hc] at h
    simp only [if_pos] at h
    rcases PStep.mem_bind_trace h with h2 | ⟨mk, h2⟩
    · rw [PStep.readBatchKey_trace] at h2; simp_all
    · rcases sc with _ | slc <;> simp at h2

theorem runUnet_events {m : StableDiffusionModel} {args : TrainArgs} {b : Batch}
    {li : Tensor} {ts : List Nat} {txt : Tensor} {e : Eff}
    (h : e ∈ (runUnet m args b li ts txt).2) :
    (args.model_type.has_depth_input = true ∧ e = .readKey "latent_depth") ∨ e = .unet := by
  unfold runUnet at h
  cases hc : args.model_type.has_depth_input with
  | false => rw [hc] at h; simp at h; exact Or.inr h
  | true =>
    rw [hc] at h
    simp only [if_pos] at h
    rcases PStep.mem_bind_trace h with h2 | ⟨d, h2⟩
    · rw [PStep.readBatchKey_trace] at h2
      simp only [List.mem_singleton] at h2
      exact Or.inl ⟨rfl, h2⟩
    · simp only [List.mem_singleton] at h2
      exact Or.inr h2

theorem stageB_events {m : StableDiffusionModel} {b : Batch} {args : TrainArgs}
    {gRng : Nat} {a : AOut} {e : Eff} (h : e ∈ (stageB m b args gRng a).2) :
    (∃ ts, e = .randint ts)
    ∨ e = .readKey "tokens"
    ∨ ((args.model_type.has_mask_input && args.model_type.has_conditioning_image_input) = true ∧
        e = .readKey "latent_mask")
    ∨ (args.model_type.has_depth_input = true ∧ e = .readKey "latent_depth")
    ∨ e = .unet := by
  unfold stageB at h
  rcases PStep.mem_bind_trace h with h2 | ⟨ts, h2⟩
  · exact Or.inl (sampleGlobalTimestep_events h2)
  · rcases PStep.mem_bind_trace h2 with h3 | ⟨tok, h3⟩
    · rw [PStep.readBatchKey_trace] at h3; simp at h3; exact Or.inr (Or.inl h3)
    · rcases PStep.mem_bind_trace h3 with h4 | ⟨li, h4⟩
      · exact Or.inr (Or.inr (Or.inl (buildLatentInput_events h4)))
      · rcases PStep.mem_bind_trace h4 with h5 | ⟨pr, h5⟩
        · rcases runUnet_events h5 with h6 | h6
          · exact Or.inr (Or.inr (Or.inr (Or.inl h6)))
          · exact Or.inr (Or.inr (Or.inr (Or.inr h6)))
        · simp at h5

theorem save_image_events {sv : String → Bool} {t : Tensor} {d nm : String}
    {st : Nat} {e : Eff} (h : e ∈ (save_image sv t d nm st).2) :
    ∃ pth, e = .save pth := by
  unfold save_image at h
  by_cases hs : sv (pathJoin d ("step-" ++ toString st ++ "-" ++ nm ++ ".png")) <;>
    simp [hs] at h <;> exact ⟨_, h⟩

theorem debugPass_events {m : StableDiffusionModel} {args : TrainArgs}
    {sv : String → Bool} {a : AOut} {bo : BOut} {e : Eff}
    (h : e ∈ (debugPass m args sv a bo).2) : ∃ pth, e = .save pth := by
  unfold debugPass at h
  rcases PStep.mem_bind_trace h with h2 | ⟨u, h2⟩
  · exact save_image_events h2
  rcases PStep.mem_bind_trace h2 with h3 | ⟨u, h3⟩
  · exact save_image_events h3
  rcases PStep.mem_bind_trace h3 with h4 | ⟨u, h4⟩
  · exact save_image_events h4
  rcases PStep.mem_bind_trace h4 with h5 | ⟨u, h5⟩
  · exact save_image_events h5
  rcases PStep.mem_bind_trace h5 with h6 | ⟨u, h6⟩
  · exact save_image_events h6
  cases hc : m.model_type.has_conditioning_image_input with
  | false => rw [hc] at h6; simp at h6
  | true =>
    rw [hc] at h6
    simp only [if_pos] at h6
    rcases hlc : a.latent_conditioning_image with _ | ci
    · rw [hlc] at h6; simp at h6
    · rw [hlc] at h6; exact save_image_events h6

theorem predict_events {m : StableDiffusionModel} {b : Batch} {args : TrainArgs}
    {g0 gr : Nat} {sv : String → Bool} {e : Eff}
    (h : e ∈ (predict m b args g0 gr sv).2) :
    e = .readKey "latent_image"
    ∨ (args.model_type.has_conditioning_image_input = true ∧
        e = .readKey "latent_conditioning_image")
    ∨ e = .readKey "tokens"
    ∨ ((args.model_type.has_mask_input && args.model_type.has_conditioning_image_input) = true ∧
        e = .readKey "latent_mask")
    ∨ (args.model_type.has_depth_input = true ∧ e = .readKey "latent_depth")
    ∨ (∃ sh, e = .randn sh) ∨ (∃ ts, e = .randint ts) ∨ e = .unet
    ∨ (∃ pth, e = .save pth) := by
  unfold predict at h
  rcases PStep.mem_bind_trace h with h2 | ⟨a, h2⟩
  · rcases stageA_events h2 with h3 | h3 | h3
    · exact Or.inl h3
    · exact Or.inr (Or.inl h3)
    · exact Or.inr (Or.inr (Or.inr (Or.inr (Or.inr (Or.inl h3)))))
  rcases PStep.mem_bind_trace h2 with h3 | ⟨bo, h3⟩
  · rcases stageB_events h3 with h4 | h4 | h4 | h4 | h4
    · exact Or.inr (Or.inr (Or.inr (Or.inr (Or.inr (Or.inr (Or.inl h4))))))
    · exact Or.inr (Or.inr (Or.inl h4))
    · exact Or.inr (Or.inr (Or.inr (Or.inl h4)))
    · exact Or.inr (Or.inr (Or.inr (Or.inr (Or.inl h4))))
    · exact Or.inr (Or.inr (Or.inr (Or.inr (Or.inr (Or.inr (Or.inr (Or.inl h4)))))))
  rcases PStep.mem_bind_trace h3 with h4 | ⟨u, h4⟩
  · cases hd : args.debug_mode with
    | false => rw [hd] at h4; simp at h4
    | true =>
      rw [hd] at h4
      simp only [if_pos] at h4
      exact Or.inr (Or.inr (Or.inr (Or.inr (Or.inr (Or.inr (Or.inr (Or.inr
        (debugPass_events h4))))))))
  · simp at h4

theorem randnShapes_append (t1 t2 : List Eff) :
    randnShapes (t1 ++ t2) = randnShapes t1 ++ randnShapes t2 := by
  simp [randnShapes]

theorem tracedRandint_append (t1 t2 : List Eff) :
    tracedRandint (t1 ++ t2) = tracedRandint t1 ++ tracedRandint t2 := by
  simp [tracedRandint]

theorem randnShapes_eq_nil {tr : List Eff} (h : ∀ e ∈ tr, ∀ sh, e ≠ Eff.randn sh) :
    randnShapes tr = [] := by
  rw [randnShapes, List.filterMap_eq_nil_iff]
  intro e he
  cases e with
  | randn sh => exact absurd rfl (h _ he sh)
  | _ => simp

theorem stageB_randnShapes (m : StableDiffusionModel) (b : Batch) (args : TrainArgs)
    (gRng : Nat) (a : AOut) : randnShapes (stageB m b args gRng a).2 = [] := by
  apply randnShapes_eq_nil
  intro e he sh
  rcases stageB_events he with ⟨ts, h⟩ | h | ⟨_, h⟩ | ⟨_, h⟩ | h <;> subst h <;> simp

theorem debugPass_randnShapes (m : StableDiffusionModel) (args : TrainArgs)
    (sv : String → Bool) (a : AOut) (bo : BOut) :
    randnShapes (debugPass m args sv a bo).2 = [] := by
  apply randnShapes_eq_nil
  intro e he sh
  obtain ⟨pth, h⟩ := debugPass_events he
  subst h; simp

theorem pyInt_of_nonneg {q : ℚ} (h : 0 ≤ q) : pyInt q = ⌊q⌋ := by
  simp [pyInt, h]

theorem broadcastDim_self (x : Nat) : broadcastDim x x = some x := by
  simp [broadcastDim]

theorem broadcastDim_one_right (x : Nat) : broadcastDim x 1 = some x := by
  by_cases h : x = 1 <;> simp [broadcastDim, h]

theorem broadcastShape_offset (b0 c h w : Nat) :
    broadcastShape [b0, c, h, w] [b0, c, 1, 1] = some [b0, c, h, w] := by
  simp [broadcastShape, broadcastRev, broadcastDim_one_right, broadcastDim_self]

theorem offset_noise_sum_shape (gs : Nat) (w' : ℚ) (b0 c h w : Nat) :
    (Tensor.add (Tensor.randnG gs 0 [b0, c, h, w])
      (Tensor.smul w' (Tensor.randnG gs 1 [b0, c, 1, 1]))).shape = some [b0, c, h, w] := by
  simp [Tensor.shape, broadcastShape_offset]

theorem stageA_generatorInit_irrel (m : StableDiffusionModel) (b : Batch)
    (args : TrainArgs) (g0 g1 : Nat) : stageA m b args g0 = stageA m b args g1 := rfl

theorem stageA_debugMode_irrel (m : StableDiffusionModel) (b : Batch)
    (args : TrainArgs) (d : Bool) (g0 : Nat) :
    stageA m b ⟨args.model_type, args.train_text_encoder, args.offset_noise_weight,
      args.max_noising_strength, args.train_device, args.train_dtype, d, args.debug_dir⟩ g0
      = stageA m b args g0 := rfl

theorem stageB_debugMode_irrel (m : StableDiffusionModel) (b : Batch)
    (args : TrainArgs) (d : Bool) (gRng : Nat) (a : AOut) :
    stageB m b ⟨args.model_type, args.train_text_encoder, args.offset_noise_weight,
      args.max_noising_strength, args.train_device, args.train_dtype, d, args.debug_dir⟩ gRng a
      = stageB m b args gRng a := rfl

theorem readCond_congr {m : StableDiffusionModel} {args : TrainArgs} {b b' : Batch}
    (hc : args.model_type.has_conditioning_image_input = true →
      b.latent_conditioning_image = b'.latent_conditioning_image) :
    readCond m b args = readCond m b' args := by
  unfold readCond
  cases h : args.model_type.has_conditioning_image_input with
  | false => simp [h]
  | true => simp [h, hc h]

theorem stageA_congr {m : StableDiffusionModel} {args : TrainArgs} {g0 : Nat}
    {b b' : Batch} (h1 : b.latent_image = b'.latent_image)
    (hc : args.model_type.has_conditioning_image_input = true →
      b.latent_conditioning_image = b'.latent_conditioning_image) :
    stageA m b args g0 = stageA m b' args g0 := by
  unfold stageA
  simp only [h1, readCond_congr hc]

theorem buildLatentInput_congr {args : TrainArgs} {b b' : Batch}
    (hm : (args.model_type.has_mask_input && args.model_type.has_conditioning_image_input)
        = true → b.latent_mask = b'.latent_mask) :
    ∀ sn sc, buildLatentInput args b sn sc = buildLatentInput args b' sn sc := by
  intro sn sc
  unfold buildLatentInput
  cases h : args.model_type.has_mask_input && args.model_type.has_conditioning_image_input with
  | false => simp [h]
  | true => simp [h, hm h]

theorem runUnet_congr {m : StableDiffusionModel} {args : TrainArgs} {b b' : Batch}
    (hd : args.model_type.has_depth_input = true → b.latent_depth = b'.latent_depth) :
    ∀ li ts txt, runUnet m args b li ts txt = runUnet m args b' li ts txt := by
  intro li ts txt
  unfold runUnet
  cases h : args.model_type.has_depth_input with
  | false => simp [h]
  | true => simp [h, hd h]

theorem stageB_congr {m : StableDiffusionModel} {args : TrainArgs} {gRng : Nat}
    {b b' : Batch} (ht : b.tokens = b'.tokens)
    (hm : (args.model_type.has_mask_input && args.model_type.has_conditioning_image_input)
        = true → b.latent_mask = b'.latent_mask)
    (hd : args.model_type.has_depth_input = true → b.latent_depth = b'.latent_depth) :
    ∀ a, stageB m b args gRng a = stageB m b' args gRng a := by
  intro a
  unfold stageB
  simp only [ht, buildLatentInput_congr hm, runUnet_congr hd]

theorem predict_congr {m : StableDiffusionModel} {args : TrainArgs} {g0 gRng : Nat}
    {sv : String → Bool} {b b' : Batch}
    (h1 : b.latent_image = b'.latent_image)
    (hc : args.model_type.has_conditioning_image_input = true →
      b.latent_conditioning_image = b'.latent_conditioning_image)
    (ht : b.tokens = b'.tokens)
    (hm : (args.model_type.has_mask_input && args.model_type.has_conditioning_image_input)
        = true → b.latent_mask = b'.latent_mask)
    (hd : args.model_type.has_depth_input = true → b.latent_depth = b'.latent_depth) :
    predict m b args g0 gRng sv = predict m b' args g0 gRng sv := by
  unfold predict
  simp only [stageA_congr h1 hc, stageB_congr ht hm hd]

theorem save_image_ok {sv : String → Bool} (hsv : ∀ pth, sv pth = true)
    (t : Tensor) (d nm : String) (st : Nat) :
    save_image sv t d nm st
      = (.ok (), [.save (pathJoin d ("step-" ++ toString st ++ "-" ++ nm ++ ".png"))]) := by
  simp [save_image, hsv]

theorem debugPass_ok {m : StableDiffusionModel} {args : TrainArgs} {sv : String → Bool}
    {a : AOut} {bo : BOut} (hsv : ∀ pth, sv pth = true)
    (hc : m.model_type.has_conditioning_image_input = true →
      ∃ ci, a.latent_conditioning_image = some ci) :
    (debugPass m args sv a bo).1 = .ok () := by
  unfold debugPass
  simp only [save_image_ok hsv]
  cases h : m.model_type.has_conditioning_image_input with
  | false => simp [PStep.bind, h]
  | true =>
    obtain ⟨ci, hci⟩ := hc h
    simp [PStep.bind, h, hci, save_image_ok hsv]

theorem stageA_run {m : StableDiffusionModel} {b : Batch} {args : TrainArgs} {g0 : Nat}
    {limg : Tensor} {s0 s1 s2 s3 : Nat}
    (hl : b.latent_image = some limg)
    (hsh : (Tensor.smul m.vae.scaling_factor limg).shape = some [s0, s1, s2, s3])
    (hcond : args.model_type.has_conditioning_image_input = true →
      ∃ c, b.latent_conditioning_image = some c) :
    ∃ a trA, stageA m b args g0 = (.ok a, trA) ∧ a.latentShape = [s0, s1, s2, s3] := by
  have hrc : ∃ lc trc, readCond m b args = (.ok lc, trc) := by
    unfold readCond
    cases h : args.model_type.has_conditioning_image_input with
    | false => exact ⟨(none, none), [], rfl⟩
    | true =>
      obtain ⟨c, hcv⟩ := hcond h
      exact ⟨(some c, some (Tensor.smul m.vae.scaling_factor c)),
        [.readKey "latent_conditioning_image"],
        by simp [hcv, PStep.bind, PStep.readBatchKey]⟩
  obtain ⟨lc, trc, hrc⟩ := hrc
  have hgs : getShape (Tensor.smul m.vae.scaling_factor limg)
      = (.ok [s0, s1, s2, s3], []) := by
    simp [getShape, hsh]
  have hdn : ∃ nz trn, drawLatentNoise m.train_progress.global_step
      args.offset_noise_weight [s0, s1, s2, s3] = (.ok nz, trn) := by
    unfold drawLatentNoise
    by_cases hw : 0 < args.offset_noise_weight
    · rw [if_pos hw]
      dsimp only
      rw [offset_noise_sum_shape]
      exact ⟨_, _, rfl⟩
    · rw [if_neg hw]
      exact ⟨_, _, rfl⟩
  obtain ⟨nz, trn, hdn⟩ := hdn
  refine ⟨⟨limg, Tensor.smul m.vae.scaling_factor limg, lc.1, lc.2, [s0, s1, s2, s3], nz⟩,
    .readKey "latent_image" :: (trc ++ trn), ?_, rfl⟩
  unfold stageA
  rw [hl]
  simp [PStep.bind, PStep.readBatchKey, TorchGenerator.manual_seed, hrc, hgs, hdn]

theorem predict_comp_stageB_error {m : StableDiffusionModel} {b : Batch}
    {args : TrainArgs} {g0 gr : Nat} {sv : String → Bool} {a : AOut} {trA : List Eff}
    {e : PredictErr} {trB : List Eff}
    (hA : stageA m b args g0 = (.ok a, trA))
    (hB : stageB m b args gr a = (.error e, trB)) :
    predict m b args g0 gr sv = (.error e, trA ++ trB) := by
  unfold predict
  simp [PStep.bind, hA, hB]

theorem stageB_empty_range {m : StableDiffusionModel} {b : Batch} {args : TrainArgs}
    {gr : Nat} {a : AOut} {b0 : Nat} {rest : List Nat}
    (hsh : a.latentShape = b0 :: rest)
    (hT : pyInt ((m.noise_scheduler.num_train_timesteps : ℚ)
        * args.max_noising_strength) ≤ 0) :
    stageB m b args gr a = (.error .emptyTimestepRange, []) := by
  have hs : sampleGlobalTimestep gr m.noise_scheduler.num_train_timesteps
      args.max_noising_strength a.latentShape = (.error .emptyTimestepRange, []) := by
    rw [hsh]
    unfold sampleGlobalTimestep
    dsimp only
    rw [if_pos hT]
  unfold stageB
  simp [PStep.bind, hs]

theorem load_diffusers_model_shape {env : LoaderEnv} {base_model_name : String}
    {model_type : ModelType} {m : StableDiffusionModel}
    (h : FineTuneModelLoader.load_diffusers_model env base_model_name model_type = some m) :
    m.model_type = model_type ∧ m.optimizer = none ∧ m.optimizer_state_dict = none ∧
      m.train_progress = TrainProgress.zero := by
  unfold FineTuneModelLoader.load_diffusers_model at h
  cases hd : model_type.has_depth_input with
  | false =>
    simp only [hd, Bool.false_eq_true, if_false, bind, Option.some_bind,
      Option.bind_eq_some, Option.some.injEq] at h
    obtain ⟨tok, htok, sched, hsched, te, hte, vae, hvae, unet, hunet, hm⟩ := h
    subst hm
    exact ⟨rfl, rfl, rfl, rfl⟩
  | true =>
    simp only [hd, if_true, bind, Option.some_bind, Option.bind_eq_some,
      Option.some.injEq, Option.map_eq_some'] at h
    obtain ⟨tok, htok, sched, hsched, te, hte, vae, hvae, unet, hunet,
      oidp, ⟨idp, hidp, hoidp⟩, ode, ⟨de, hde, hode⟩, hm⟩ := h
    subst hm
    exact ⟨rfl, rfl, rfl, rfl⟩

/-- Claim C1: `FineTuneModelLoader.load` attempts the three strategies
strictly in order (internal checkpoint, bare weights directory, single-file
checkpoint); each strategy is exception-isolated (modelled by the strategies
being Option-valued, since each wraps its entire body in a bare `except`
returning `None`); the result is the first successful bundle, and when all
three fail the result is `none`, never a partial bundle. -/
theorem load_strategy_chain (env : LoaderEnv) (base_model_name : String)
    (model_type : ModelType) :
    (∀ m, FineTuneModelLoader.load_internal_model env base_model_name model_type = some m →
      FineTuneModelLoader.load env base_model_name model_type = some m) ∧
    (∀ m, FineTuneModelLoader.load_internal_model env base_model_name model_type = none →
      FineTuneModelLoader.load_diffusers_model env base_model_name model_type = some m →
      FineTuneModelLoader.load env base_model_name model_type = some m) ∧
    (∀ m, FineTuneModelLoader.load_internal_model env base_model_name model_type = none →
      FineTuneModelLoader.load_diffusers_model env base_model_name model_type = none →
      FineTuneModelLoader.load_ckpt_model env base_model_name model_type = some m →
      FineTuneModelLoader.load env base_model_name model_type = some m) ∧
    (FineTuneModelLoader.load_internal_model env base_model_name model_type = none →
      FineTuneModelLoader.load_diffusers_model env base_model_name model_type = none →
      FineTuneModelLoader.load_ckpt_model env base_model_name model_type = none →
      FineTuneModelLoader.load env base_model_name model_type = none) := by
  refine ⟨?_, ?_, ?_, ?_⟩ <;> intros <;> simp_all [FineTuneModelLoader.load]

/-- Environment in which every loader effect fails: no readable files, no
loadable sub-networks, no sibling configs, no checkpoint conversion. -/
def envAllFail : LoaderEnv :=
  ⟨fun _ => none, fun _ => none, fun _ _ => none, fun _ _ => none, fun _ _ _ => none,
   fun _ _ _ => none, fun _ _ _ => none, fun _ _ => none, fun _ _ => none,
   fun _ => false, fun _ _ => none⟩

/-- Witness for C1: with every strategy failing, `load` returns `none`. -/
theorem load_strategy_chain_witness :
    FineTuneModelLoader.load envAllFail "/models/sd" ModelType.STABLE_DIFFUSION_15 = none :=
  (load_strategy_chain envAllFail "/models/sd" ModelType.STABLE_DIFFUSION_15).2.2.2 rfl rfl rfl

/-- Claim C8: for a directory satisfying only the bare-weights layout (no
`meta.json`, so the internal-checkpoint strategy fails, while the diffusers
strategy succeeds), `load` succeeds via the second strategy and the returned
bundle carries the default zero train progress and no optimizer state. -/
theorem load_bare_weights_defaults (env : LoaderEnv) (base_model_name : String)
    (model_type : ModelType) (m : StableDiffusionModel)
    (hmeta : env.readMetaTrainProgress (pathJoin base_model_name "meta.json") = none)
    (hdiff : FineTuneModelLoader.load_diffusers_model env base_model_name model_type = some m) :
    FineTuneModelLoader.load env base_model_name model_type = some m ∧
    m.train_progress = TrainProgress.zero ∧
    m.train_progress.epoch = 0 ∧ m.train_progress.epoch_step = 0 ∧
    m.train_progress.epoch_sample = 0 ∧ m.train_progress.global_step = 0 ∧
    m.optimizer = none ∧ m.optimizer_state_dict = none := by
  have hint : FineTuneModelLoader.load_internal_model env base_model_name model_type
      = none := by
    unfold FineTuneModelLoader.load_internal_model
    rw [show (env.readMetaTrainProgress (pathJoin base_model_name "meta.json")
      >>= fun train_progress =>
        FineTuneModelLoader.load_diffusers_model env base_model_name model_type
          >>= fun model =>
        env.torchLoad (pathJoin (pathJoin base_model_name "optimizer") "optimizer.pt")
          >>= fun osd =>
        some ⟨model.model_type, model.tokenizer, model.noise_scheduler, model.text_encoder,
          model.vae, model.unet, model.image_depth_processor, model.depth_estimator,
          model.optimizer, some osd, train_progress⟩)
      = (none : Option StableDiffusionModel) from by rw [hmeta]; rfl]
  obtain ⟨hmt, hopt, hosd, htp⟩ := load_diffusers_model_shape hdiff
  refine ⟨?_, htp, ?_, ?_, ?_, ?_, hopt, hosd⟩ <;>
    simp [FineTuneModelLoader.load, hint, hdiff, htp, TrainProgress.zero]

/-- Environment presenting only the bare-weights layout: `meta.json` is
unreadable, but every sub-network subfolder loads. -/
def envBareWeights : LoaderEnv :=
  ⟨fun _ => none, fun _ => none, fun _ _ => some ⟨7⟩, fun _ _ => some ⟨8, 1000⟩,
   fun _ _ _ => some ⟨9, "float32"⟩, fun _ _ _ => some ⟨10, 18215/100000, "float32"⟩,
   fun _ _ _ => some ⟨11, "float32"⟩, fun _ _ => some ⟨12⟩, fun _ _ => some ⟨13⟩,
   fun _ => false, fun _ _ => none⟩

/-- The bundle the bare-weights environment produces. -/
def mBare : StableDiffusionModel :=
  StableDiffusionModel.make ModelType.STABLE_DIFFUSION_15 ⟨7⟩ ⟨8, 1000⟩ ⟨9, "float32"⟩
    ⟨10, 18215/100000, "float32"⟩ ⟨11, "float32"⟩ none none none TrainProgress.zero

/-- Witness for C8 at a concrete bare-weights directory. -/
theorem load_bare_weights_defaults_witness :
    FineTuneModelLoader.load envBareWeights "/models/sd" ModelType.STABLE_DIFFUSION_15
        = some mBare ∧
      mBare.train_progress = TrainProgress.zero ∧ mBare.optimizer = none ∧
      mBare.optimizer_state_dict = none := by
  obtain ⟨h1, h2, _, _, _, _, h3, h4⟩ := load_bare_weights_defaults envBareWeights
    "/models/sd" ModelType.STABLE_DIFFUSION_15 mBare rfl rfl
  exact ⟨h1, h2, h3, h4⟩

/-- Claim C6 (amended): the single-file strategy resolves the config by
trying the sibling `.yaml`, then the sibling `.yml`, then the built-in
five-entry table keyed on the model type; a sibling `.yaml` is preferred
over any built-in default; for a model type outside the five known variants
with no sibling config, no config path is resolved and the strategy hands
the packed file to the external conversion with no config file, so the
strategy fails exactly when that external call fails. -/
theorem ckpt_config_resolution (env : LoaderEnv) (base_model_name : String)
    (model_type : ModelType) :
    (env.pathExists (splitextRoot base_model_name ++ ".yaml") = true →
      FineTuneModelLoader.resolve_yaml_name env base_model_name model_type
        = some (splitextRoot base_model_name ++ ".yaml")) ∧
    (env.pathExists (splitextRoot base_model_name ++ ".yaml") = false →
      env.pathExists (splitextRoot base_model_name ++ ".yml") = true →
      FineTuneModelLoader.resolve_yaml_name env base_model_name model_type
        = some (splitextRoot base_model_name ++ ".yml")) ∧
    (env.pathExists (splitextRoot base_model_name ++ ".yaml") = false →
      env.pathExists (splitextRoot base_model_name ++ ".yml") = false →
      FineTuneModelLoader.resolve_yaml_name env base_model_name model_type
        = FineTuneModelLoader.default_yaml_name model_type) ∧
    (FineTuneModelLoader.default_yaml_name ModelType.STABLE_DIFFUSION_15
        = some "resources/diffusers_model_config/v1-inference.yaml" ∧
      FineTuneModelLoader.default_yaml_name ModelType.STABLE_DIFFUSION_15_INPAINTING
        = some "resources/diffusers_model_config/v1-inpainting-inference.yaml" ∧
      FineTuneModelLoader.default_yaml_name ModelType.STABLE_DIFFUSION_20
        = some "resources/diffusers_model_config/v2-inference.yaml" ∧
      FineTuneModelLoader.default_yaml_name ModelType.STABLE_DIFFUSION_20_INPAINTING
        = some "resources/diffusers_model_config/v2-inpainting-inference.yaml" ∧
      FineTuneModelLoader.default_yaml_name ModelType.STABLE_DIFFUSION_20_DEPTH
        = some "resources/diffusers_model_config/v2-midas-inference.yaml" ∧
      FineTuneModelLoader.default_yaml_name ModelType.other = none) ∧
    (env.pathExists (splitextRoot base_model_name ++ ".yaml") = false →
      env.pathExists (splitextRoot base_model_name ++ ".yml") = false →
      FineTuneModelLoader.default_yaml_name model_type = none →
      (FineTuneModelLoader.load_ckpt_model env base_model_name model_type = none ↔
        env.downloadCkpt base_model_name none = none)) := by
  refine ⟨?_, ?_, ?_, ⟨rfl, rfl, rfl, rfl, rfl, rfl⟩, ?_⟩
  · intro h1
    simp [FineTuneModelLoader.resolve_yaml_name, h1]
  · intro h1 h2
    simp [FineTuneModelLoader.resolve_yaml_name, h1, h2]
  · intro h1 h2
    simp [FineTuneModelLoader.resolve_yaml_name, h1, h2]
  · intro h1 h2 h3
    have hres : FineTuneModelLoader.resolve_yaml_name env base_model_name model_type
        = none := by
      simp [FineTuneModelLoader.resolve_yaml_name, h1, h2, h3]
    unfold FineTuneModelLoader.load_ckpt_model
    rw [hres]
    cases hd : env.downloadCkpt base_model_name none with
    | none => simp [hd]
    | some p => simp [hd]

/-- Witness for C6 at a concrete input: all sibling configs absent, a known
model type resolves to its built-in default. -/
theorem ckpt_config_resolution_witness :
    FineTuneModelLoader.resolve_yaml_name envAllFail "/models/model.ckpt"
        ModelType.STABLE_DIFFUSION_15
      = some "resources/diffusers_model_config/v1-inference.yaml" :=
  (ckpt_config_resolution envAllFail "/models/model.ckpt"
    ModelType.STABLE_DIFFUSION_15).2.2.1 rfl rfl

/-- Environment with no sibling config files, in which the external
checkpoint conversion succeeds even when handed no config file (the library
is free to do so, e.g. by fetching a default config itself). -/
def envNoSiblingCkpt : LoaderEnv :=
  ⟨fun _ => none, fun _ => none, fun _ _ => none, fun _ _ => none, fun _ _ _ => none,
   fun _ _ _ => none, fun _ _ _ => none, fun _ _ => none, fun _ _ => none,
   fun _ => false,
   fun _ cfg =>
     match cfg with
     | none => some ⟨⟨20⟩, ⟨21, 1000⟩, ⟨22, "fp16"⟩, ⟨23, 18215/100000, "fp16"⟩, ⟨24, "fp16"⟩⟩
     | some _ => none⟩

/-- Counterexample to C6 as stated: for the unknown model type with no
sibling config, no config is resolved, yet the strategy does not fail by
itself - the source passes `original_config_file = None` to the external
conversion and succeeds whenever that call does. -/
theorem ckpt_unknown_type_counterexample :
    FineTuneModelLoader.resolve_yaml_name envNoSiblingCkpt "/models/model.ckpt"
        ModelType.other = none ∧
      (FineTuneModelLoader.load_ckpt_model envNoSiblingCkpt "/models/model.ckpt"
        ModelType.other).isSome = true := by
  exact ⟨rfl, rfl⟩

/-- Claim C9: `create_pipeline` selects the pipeline variant purely by the
capability flags, depth first (regardless of the conditioning flag), then
conditioning image, else plain; the conditioning and plain variants are
built with the safety checker disabled (`None`, `requires_safety_checker =
False`) and no feature extractor; the construction is a pure function of the
bundle and never mutates it. -/
theorem create_pipeline_selection (m : StableDiffusionModel) :
    (m.model_type.has_depth_input = true →
      m.create_pipeline = .stableDiffusionDepth2Img m.vae m.text_encoder m.tokenizer
        m.unet m.noise_scheduler m.depth_estimator m.image_depth_processor) ∧
    (m.model_type.has_depth_input = false →
      m.model_type.has_conditioning_image_input = true →
      m.create_pipeline = .stableDiffusionInpaint m.vae m.text_encoder m.tokenizer
        m.unet m.noise_scheduler none none false) ∧
    (m.model_type.has_depth_input = false →
      m.model_type.has_conditioning_image_input = false →
      m.create_pipeline = .stableDiffusion m.vae m.text_encoder m.tokenizer
        m.unet m.noise_scheduler none none false) := by
  refine ⟨?_, ?_, ?_⟩ <;> intros <;> simp_all [StableDiffusionModel.create_pipeline]

/-- A concrete depth-capable bundle. -/
def mDepth : StableDiffusionModel :=
  ⟨ModelType.STABLE_DIFFUSION_20_DEPTH, ⟨1⟩, ⟨2, 1000⟩, ⟨3, "float32"⟩,
    ⟨4, 18215/100000, "float32"⟩, ⟨5, "float32"⟩, some ⟨6⟩, some ⟨7⟩, none, none,
    TrainProgress.zero⟩

/-- Witness for C9: the depth-capable bundle yields the depth pipeline. -/
theorem create_pipeline_selection_witness :
    mDepth.create_pipeline = .stableDiffusionDepth2Img mDepth.vae mDepth.text_encoder
      mDepth.tokenizer mDepth.unet mDepth.noise_scheduler mDepth.depth_estimator
      mDepth.image_depth_processor :=
  (create_pipeline_selection mDepth).1 rfl

/-- Claim C5: two `predict` calls with identical bundle, batch, configuration
and `trainProgress.globalStep` return bit-identical actualNoise tensors,
because the noise generator is freshly seeded from the global step inside
each call: the returned noise is independent of the ambient state of the
fresh generator, of the process-global RNG, and of the debug write
environment. -/
theorem predict_actual_noise_deterministic (m : StableDiffusionModel) (b : Batch)
    (args : TrainArgs) (g0 g0' gr gr' : Nat) (sv sv' : String → Bool)
    (p1 n1 p2 n2 : Tensor) (t1 t2 : List Eff)
    (h1 : predict m b args g0 gr sv = (.ok (p1, n1), t1))
    (h2 : predict m b args g0' gr' sv' = (.ok (p2, n2), t2)) :
    n1 = n2 := by
  obtain ⟨a1, trA1, bo1, trB1, trD1, hA1, _, _, hn1, _, _⟩ := predict_eq_ok h1
  obtain ⟨a2, trA2, bo2, trB2, trD2, hA2, _, _, hn2, _, _⟩ := predict_eq_ok h2
  rw [stageA_generatorInit_irrel m b args g0' g0] at hA2
  rw [hA1] at hA2
  simp only [Prod.mk.injEq, Except.ok.injEq] at hA2
  rw [hn1, hn2, hA2.1]

/-- A concrete bundle: an SD 1.5 model at global step 5. -/
def mW : StableDiffusionModel :=
  ⟨ModelType.STABLE_DIFFUSION_15, ⟨1⟩, ⟨2, 1000⟩, ⟨3, "float32"⟩,
    ⟨4, 2, "float32"⟩, ⟨5, "float32"⟩, none, none, none, none, ⟨0, 0, 0, 5⟩⟩

/-- A concrete batch for the plain SD 1.5 model. -/
def bW : Batch :=
  ⟨some (.input "latent_image" [2, 4, 8, 8]), none, none, none,
    some (.input "tokens" [2, 77])⟩

/-- A concrete configuration: no offset noise, full noising range, debug off. -/
def argsW : TrainArgs :=
  ⟨ModelType.STABLE_DIFFUSION_15, false, 0, 1, "cuda", "float32", false, "debug"⟩

/-- A debug write environment in which every write succeeds. -/
def svT : String → Bool := fun _ => true

/-- The noise tensor of the first concrete run. -/
def nW0 : Tensor := .randnG 5 0 [2, 4, 8, 8]

/-- The noise tensor of the second concrete run (the same draw). -/
def nW1 : Tensor := .randnG 5 0 [2, 4, 8, 8]

/-- The scaled latent of the concrete runs. -/
def scaledW : Tensor := .smul 2 (.input "latent_image" [2, 4, 8, 8])

/-- Timesteps drawn with the process-global RNG in state 0. -/
def tsW0 : List Nat := [345, 690]

/-- Timesteps drawn with the process-global RNG in state 1. -/
def tsW1 : List Nat := [590, 935]

/-- Predicted noise of the run with global RNG state 0. -/
def pW0 : Tensor :=
  .unetOut 5 (.addNoise 2 scaledW nW0 tsW0) tsW0 (.textEnc 3 (.input "tokens" [2, 77]))

/-- Predicted noise of the run with global RNG state 1. -/
def pW1 : Tensor :=
  .unetOut 5 (.addNoise 2 scaledW nW1 tsW1) tsW1 (.textEnc 3 (.input "tokens" [2, 77]))

/-- Trace of the run with global RNG state 0. -/
def trW0 : List Eff :=
  [.readKey "latent_image", .randn [2, 4, 8, 8], .randint tsW0, .readKey "tokens", .unet]

/-- Trace of the run with global RNG state 1. -/
def trW1 : List Eff :=
  [.readKey "latent_image", .randn [2, 4, 8, 8], .randint tsW1, .readKey "tokens", .unet]

theorem pyInt_1000 : pyInt (1000 : ℚ) = 1000 := by
  rw [pyInt_of_nonneg (by norm_num)]
  norm_num

theorem predict_run_plain (g0 gr : Nat) (sv : String → Bool) :
    predict mW bW argsW g0 gr sv =
      (.ok (.unetOut 5 (.addNoise 2 scaledW nW0 (torchGlobalRandint gr 1000 2))
          (torchGlobalRandint gr 1000 2) (.textEnc 3 (.input "tokens" [2, 77])), nW0),
        [.readKey "latent_image", .randn [2, 4, 8, 8],
          .randint (torchGlobalRandint gr 1000 2), .readKey "tokens", .unet]) := by
  simp [predict, stageA, stageB, readCond, getShape, drawLatentNoise,
    sampleGlobalTimestep, buildLatentInput, runUnet, PStep.bind, PStep.readBatchKey,
    TorchGenerator.manual_seed, Tensor.shape, mW, bW, argsW, scaledW, nW0,
    ModelType.has_conditioning_image_input, ModelType.has_mask_input,
    ModelType.has_depth_input, pyInt_1000]

/-- Witness for C5: two concrete runs with different ambient generator and
global-RNG states return the same actual noise. -/
theorem predict_actual_noise_deterministic_witness :
    predict mW bW argsW 0 0 svT = (.ok (pW0, nW0), trW0) ∧
      predict mW bW argsW 17 1 svT = (.ok (pW1, nW1), trW1) ∧ nW0 = nW1 := by
  have h0 : predict mW bW argsW 0 0 svT = (.ok (pW0, nW0), trW0) := by
    rw [predict_run_plain 0 0 svT, show torchGlobalRandint 0 1000 2 = tsW0 from by decide]
    rfl
  have h1 : predict mW bW argsW 17 1 svT = (.ok (pW1, nW1), trW1) := by
    rw [predict_run_plain 17 1 svT, show torchGlobalRandint 1 1000 2 = tsW1 from by decide]
    rfl
  exact ⟨h0, h1, predict_actual_noise_deterministic mW bW argsW 0 17 0 1 svT svT
    pW0 nW0 pW1 nW1 trW0 trW1 h0 h1⟩

theorem readCond_randnShapes (m : StableDiffusionModel) (b : Batch) (args : TrainArgs) :
    randnShapes (readCond m b args).2 = [] := by
  apply randnShapes_eq_nil
  intro e he sh
  obtain ⟨_, h⟩ := readCond_events he
  subst h
  simp

theorem randnShapes_nil : randnShapes [] = [] := rfl

theorem randnShapes_cons_readKey (k : String) (l : List Eff) :
    randnShapes (.readKey k :: l) = randnShapes l := by
  simp [randnShapes]

theorem randnShapes_cons_randn (sh : List Nat) (l : List Eff) :
    randnShapes (.randn sh :: l) = sh :: randnShapes l := by
  simp [randnShapes]

/-- Claim C4: when the offset-noise weight is positive, the actual noise is a
full-resolution standard-normal draw plus the weight times a per-channel
`(b, c, 1, 1)` standard-normal draw, both from the same generator (seeded
with the global step, draw indices 0 and 1); when the weight is not positive
a single full-resolution draw is made and no offset-noise tensor is ever
allocated (the trace holds exactly one normal draw); in both branches the
noise has the shape of the scaled latent image. -/
theorem predict_offset_noise (m : StableDiffusionModel) (b : Batch) (args : TrainArgs)
    (g0 gr : Nat) (sv : String → Bool) (p n : Tensor) (tr : List Eff)
    (limg : Tensor) (b0 c h w : Nat)
    (hl : b.latent_image = some limg)
    (hsh : (Tensor.smul m.vae.scaling_factor limg).shape = some [b0, c, h, w])
    (hrun : predict m b args g0 gr sv = (.ok (p, n), tr)) :
    (0 < args.offset_noise_weight →
      n = Tensor.add (Tensor.randnG m.train_progress.global_step 0 [b0, c, h, w])
          (Tensor.smul args.offset_noise_weight
            (Tensor.randnG m.train_progress.global_step 1 [b0, c, 1, 1])) ∧
      n.shape = some [b0, c, h, w] ∧
      randnShapes tr = [[b0, c, h, w], [b0, c, 1, 1]]) ∧
    (args.offset_noise_weight ≤ 0 →
      n = Tensor.randnG m.train_progress.global_step 0 [b0, c, h, w] ∧
      n.shape = some [b0, c, h, w] ∧
      randnShapes tr = [[b0, c, h, w]]) := by
  obtain ⟨a, trA, bo, trB, trD, hA, hB, hp, hn, htr, hdbg⟩ := predict_eq_ok hrun
  obtain ⟨hli, hsc, hshape, trc, trn, hrc, hdn, htrA⟩ := stageA_eq_ok hA
  have hlimg : a.latent_image = limg := by
    rw [hl] at hli
    exact (Option.some.inj hli).symm
  have hLS : a.latentShape = [b0, c, h, w] := by
    rw [hsc, hlimg] at hshape
    exact (Option.some.inj (hsh.symm.trans hshape)).symm
  have htrc : trc = (readCond m b args).2 := (congrArg Prod.snd hrc).symm
  have htrB : trB = (stageB m b args gr a).2 := (congrArg Prod.snd hB).symm
  have htrD : randnShapes trD = [] := by
    rcases hdbg with ⟨_, hdp⟩ | ⟨_, hdp⟩
    · have : trD = (debugPass m args sv a bo).2 := (congrArg Prod.snd hdp).symm
      rw [this, debugPass_randnShapes]
    · rw [hdp, randnShapes]
      rfl
  rcases drawLatentNoise_eq_ok hdn with ⟨hw, s0, s1, rest, hsheq, hnoise, _, htrn⟩ |
      ⟨hw, hnoise, htrn⟩
  · have hdims : s0 = b0 ∧ s1 = c ∧ rest = [h, w] := by
      rw [hLS] at hsheq
      simp only [List.cons.injEq] at hsheq
      exact ⟨hsheq.1.symm, hsheq.2.1.symm, hsheq.2.2.symm⟩
    obtain ⟨hd0, hd1, hd2⟩ := hdims
    subst hd0 hd1 hd2
    constructor
    · intro _
      refine ⟨?_, ?_, ?_⟩
      · rw [hn, hnoise, hLS]
      · rw [hn, hnoise, hLS, offset_noise_sum_shape]
      · subst htr
        rw [htrA, htrc, htrB, htrn]
        simp [randnShapes_append, randnShapes_cons_readKey, randnShapes_cons_randn,
          randnShapes_nil, readCond_randnShapes, stageB_randnShapes, htrD, hLS]
    · intro hw2
      exact absurd hw (not_lt.mpr hw2)
  · constructor
    · intro hw2
      exact absurd hw2 (not_lt.mpr hw)
    · intro _
      refine ⟨?_, ?_, ?_⟩
      · rw [hn, hnoise, hLS]
      · rw [hn, hnoise, hLS]
        rfl
      · subst htr
        rw [htrA, htrc, htrB, htrn]
        simp [randnShapes_append, randnShapes_cons_readKey, randnShapes_cons_randn,
          randnShapes_nil, readCond_randnShapes, stageB_randnShapes, htrD, hLS]

/-- Configuration with offset-noise weight 1 (debug off, full range). -/
def argsOff : TrainArgs :=
  ⟨ModelType.STABLE_DIFFUSION_15, false, 1, 1, "cuda", "float32", false, "debug"⟩

/-- The offset-branch noise of the concrete run. -/
def nOff : Tensor :=
  .add (.randnG 5 0 [2, 4, 8, 8]) (.smul 1 (.randnG 5 1 [2, 4, 1, 1]))

/-- Predicted noise of the concrete offset run. -/
def pOff : Tensor :=
  .unetOut 5 (.addNoise 2 scaledW nOff tsW0) tsW0 (.textEnc 3 (.input "tokens" [2, 77]))

/-- Trace of the concrete offset run. -/
def trOff : List Eff :=
  [.readKey "latent_image", .randn [2, 4, 8, 8], .randn [2, 4, 1, 1], .randint tsW0,
    .readKey "tokens", .unet]

theorem predict_run_offset (g0 gr : Nat) (sv : String → Bool) :
    predict mW bW argsOff g0 gr sv =
      (.ok (.unetOut 5 (.addNoise 2 scaledW nOff (torchGlobalRandint gr 1000 2))
          (torchGlobalRandint gr 1000 2) (.textEnc 3 (.input "tokens" [2, 77])), nOff),
        [.readKey "latent_image", .randn [2, 4, 8, 8], .randn [2, 4, 1, 1],
          .randint (torchGlobalRandint gr 1000 2), .readKey "tokens", .unet]) := by
  simp [predict, stageA, stageB, readCond, getShape, drawLatentNoise,
    sampleGlobalTimestep, buildLatentInput, runUnet, PStep.bind, PStep.readBatchKey,
    TorchGenerator.manual_seed, Tensor.shape, mW, bW, argsOff, scaledW, nOff,
    ModelType.has_conditioning_image_input, ModelType.has_mask_input,
    ModelType.has_depth_input, pyInt_1000, broadcastShape, broadcastRev, broadcastDim]

/-- Witness for C4: the concrete offset run draws the full-resolution and the
per-channel tensors from the same seeded generator and sums them; the trace
holds exactly the two normal draws. -/
theorem predict_offset_noise_witness :
    predict mW bW argsOff 0 0 svT = (.ok (pOff, nOff), trOff) ∧
      nOff = Tensor.add (Tensor.randnG 5 0 [2, 4, 8, 8])
        (Tensor.smul argsOff.offset_noise_weight (Tensor.randnG 5 1 [2, 4, 1, 1])) ∧
      nOff.shape = some [2, 4, 8, 8] ∧
      randnShapes trOff = [[2, 4, 8, 8], [2, 4, 1, 1]] := by
  have h0 : predict mW bW argsOff 0 0 svT = (.ok (pOff, nOff), trOff) := by
    rw [predict_run_offset 0 0 svT, show torchGlobalRandint 0 1000 2 = tsW0 from by decide]
    rfl
  obtain ⟨h1, h2, h3⟩ := (predict_offset_noise mW bW argsOff 0 0 svT pOff nOff trOff
    (.input "latent_image" [2, 4, 8, 8]) 2 4 8 8 rfl rfl h0).1 (by norm_num [argsOff])
  exact ⟨h0, by simpa [mW] using h1, h2, h3⟩

/-- Claim C10: `predict` is only total when `floor(T * maxNoisingStrength)`
is at least 1: whenever `T * maxNoisingStrength < 1` (with the stated
precondition `maxNoisingStrength` in (0,1] satisfied), the timestep range of
the `randint` call is empty, the call fails with the empty-range error, and
the denoiser is never invoked. -/
theorem predict_empty_timestep_range (m : StableDiffusionModel) (b : Batch)
    (args : TrainArgs) (g0 gr : Nat) (sv : String → Bool) (limg : Tensor)
    (b0 c h w : Nat)
    (hl : b.latent_image = some limg)
    (hsh : (Tensor.smul m.vae.scaling_factor limg).shape = some [b0, c, h, w])
    (hcond : args.model_type.has_conditioning_image_input = true →
      ∃ cimg, b.latent_conditioning_image = some cimg)
    (hs0 : 0 < args.max_noising_strength)
    (hs1 : args.max_noising_strength ≤ 1)
    (hT : (m.noise_scheduler.num_train_timesteps : ℚ) * args.max_noising_strength < 1) :
    (predict m b args g0 gr sv).1 = .error .emptyTimestepRange ∧
      Eff.unet ∉ (predict m b args g0 gr sv).2 := by
  obtain ⟨a, trA, hA, hshape⟩ := @stageA_run m b args g0 limg b0 c h w hl hsh hcond
  have hnn : (0 : ℚ) ≤ (m.noise_scheduler.num_train_timesteps : ℚ)
      * args.max_noising_strength := by positivity
  have hfl : ⌊(m.noise_scheduler.num_train_timesteps : ℚ)
      * args.max_noising_strength⌋ = 0 :=
    Int.floor_eq_zero_iff.mpr ⟨hnn, hT⟩
  have hpy : pyInt ((m.noise_scheduler.num_train_timesteps : ℚ)
      * args.max_noising_strength) ≤ 0 := by
    rw [pyInt_of_nonneg hnn, hfl]
  have hB := @stageB_empty_range m b args gr a b0 [c, h, w] hshape hpy
  have hP := @predict_comp_stageB_error m b args g0 gr sv a trA PredictErr.emptyTimestepRange [] hA hB
  rw [hP]
  refine ⟨rfl, ?_⟩
  simp only [List.append_nil]
  intro hmem
  have hmem2 : Eff.unet ∈ (stageA m b args g0).2 := by rw [hA]; exact hmem
  rcases stageA_events hmem2 with h2 | ⟨_, h2⟩ | ⟨sh, h2⟩ <;> simp at h2

/-- Configuration whose noising strength keeps `T * s` below 1. -/
def argsTiny : TrainArgs :=
  ⟨ModelType.STABLE_DIFFUSION_15, false, 0, 1/2000, "cuda", "float32", false, "debug"⟩

/-- Witness for C10: with T = 1000 and strength 1/2000 the call fails with
the empty-range error before any denoising. -/
theorem predict_empty_timestep_range_witness :
    (predict mW bW argsTiny 0 0 svT).1 = .error .emptyTimestepRange ∧
      Eff.unet ∉ (predict mW bW argsTiny 0 0 svT).2 :=
  predict_empty_timestep_range mW bW argsTiny 0 0 svT (.input "latent_image" [2, 4, 8, 8])
    2 4 8 8 rfl rfl (fun hc => absurd hc (by decide))
    (by norm_num [argsTiny]) (by norm_num [argsTiny]) (by norm_num [argsTiny, mW])

theorem tracedRandint_eq_nil {tr : List Eff} (h : ∀ e ∈ tr, ∀ ts, e ≠ Eff.randint ts) :
    tracedRandint tr = [] := by
  rw [tracedRandint, List.filterMap_eq_nil_iff]
  intro e he
  cases e with
  | randint ts => exact absurd rfl (h _ he ts)
  | _ => simp

theorem stageA_tracedRandint (m : StableDiffusionModel) (b : Batch) (args : TrainArgs)
    (g0 : Nat) : tracedRandint (stageA m b args g0).2 = [] := by
  apply tracedRandint_eq_nil
  intro e he ts
  rcases stageA_events he with h | ⟨_, h⟩ | ⟨sh, h⟩ <;> subst h <;> simp

theorem debugPass_tracedRandint (m : StableDiffusionModel) (args : TrainArgs)
    (sv : String → Bool) (a : AOut) (bo : BOut) :
    tracedRandint (debugPass m args sv a bo).2 = [] := by
  apply tracedRandint_eq_nil
  intro e he ts
  obtain ⟨pth, h⟩ := debugPass_events he
  subst h
  simp

theorem buildLatentInput_tracedRandint (args : TrainArgs) (b : Batch) (sn : Tensor)
    (sc : Option Tensor) : tracedRandint (buildLatentInput args b sn sc).2 = [] := by
  apply tracedRandint_eq_nil
  intro e he ts
  obtain ⟨_, h⟩ := buildLatentInput_events he
  subst h
  simp

theorem runUnet_tracedRandint (m : StableDiffusionModel) (args : TrainArgs) (b : Batch)
    (li : Tensor) (ts0 : List Nat) (txt : Tensor) :
    tracedRandint (runUnet m args b li ts0 txt).2 = [] := by
  apply tracedRandint_eq_nil
  intro e he ts
  rcases runUnet_events he with ⟨_, h⟩ | h <;> subst h <;> simp

theorem tracedRandint_cons_readKey (k : String) (l : List Eff) :
    tracedRandint (.readKey k :: l) = tracedRandint l := by
  simp [tracedRandint]

theorem tracedRandint_cons_randint (ts : List Nat) (l : List Eff) :
    tracedRandint (.randint ts :: l) = ts :: tracedRandint l := by
  simp [tracedRandint]

/-- Claim C2 (amended): the timestep sampling draws, per element of the
leading latent dimension, an integer in [0, floor(T * maxNoisingStrength)),
but the draw comes from the PROCESS-GLOBAL torch RNG (the `randint` of line
106 passes no generator argument), not from the generator seeded with
`trainProgress.globalStep`: the drawn sequence is a deterministic function
of the global RNG state, and two calls at the same global step but with
different global RNG states draw different timesteps. -/
theorem predict_timestep_sampling (m : StableDiffusionModel) (b : Batch)
    (args : TrainArgs) (g0 gr : Nat) (sv : String → Bool) (p n : Tensor)
    (tr : List Eff) (limg : Tensor) (b0 : Nat) (restSh : List Nat)
    (hl : b.latent_image = some limg)
    (hsh : (Tensor.smul m.vae.scaling_factor limg).shape = some (b0 :: restSh))
    (hs : 0 ≤ args.max_noising_strength)
    (hrun : predict m b args g0 gr sv = (.ok (p, n), tr)) :
    0 < ⌊(m.noise_scheduler.num_train_timesteps : ℚ) * args.max_noising_strength⌋ ∧
    tracedRandint tr
      = [torchGlobalRandint gr
          (⌊(m.noise_scheduler.num_train_timesteps : ℚ)
            * args.max_noising_strength⌋).toNat b0] ∧
    (torchGlobalRandint gr
        (⌊(m.noise_scheduler.num_train_timesteps : ℚ)
          * args.max_noising_strength⌋).toNat b0).length = b0 ∧
    ∀ x ∈ torchGlobalRandint gr
        (⌊(m.noise_scheduler.num_train_timesteps : ℚ)
          * args.max_noising_strength⌋).toNat b0,
      (x : ℤ) < ⌊(m.noise_scheduler.num_train_timesteps : ℚ)
        * args.max_noising_strength⌋ := by
  obtain ⟨a, trA, bo, trB, trD, hA, hB, hp, hn, htr, hdbg⟩ := predict_eq_ok hrun
  obtain ⟨hli, hsc, hshape, trc, trn, hrc, hdn, htrA⟩ := stageA_eq_ok hA
  have hlimg : a.latent_image = limg := by
    rw [hl] at hli
    exact (Option.some.inj hli).symm
  have hLS : a.latentShape = b0 :: restSh := by
    rw [hsc, hlimg] at hshape
    exact (Option.some.inj (hsh.symm.trans hshape)).symm
  obtain ⟨trl, tru, hsample, hnoisy, htok, hbuild, hunet, htrB⟩ := stageB_eq_ok hB
  obtain ⟨b0x, restx, hshx, hpos, hts, _⟩ := sampleGlobalTimestep_eq_ok hsample
  rw [hLS] at hshx
  have hb0 : b0x = b0 := by
    simp only [List.cons.injEq] at hshx
    exact hshx.1.symm
  subst hb0
  have hsT : (0 : ℚ) ≤ (m.noise_scheduler.num_train_timesteps : ℚ)
      * args.max_noising_strength := by positivity
  rw [pyInt_of_nonneg hsT] at hpos hts
  refine ⟨hpos, ?_, ?_, ?_⟩
  · subst htr
    rw [htrA, htrB]
    have h1 : trA = Eff.readKey "latent_image" :: (trc ++ trn) := htrA
    have htrcp : trc = (readCond m b args).2 := (congrArg Prod.snd hrc).symm
    have htrc2 : tracedRandint trc = [] := by
      rw [htrcp]
      apply tracedRandint_eq_nil
      intro e he ts
      obtain ⟨_, h⟩ := readCond_events he
      subst h
      simp
    have htrnp : trn = (drawLatentNoise m.train_progress.global_step
        args.offset_noise_weight a.latentShape).2 := (congrArg Prod.snd hdn).symm
    have htrn2 : tracedRandint trn = [] := by
      rw [htrnp]
      apply tracedRandint_eq_nil
      intro e he ts
      obtain ⟨sh2, h⟩ := drawLatentNoise_events he
      subst h
      simp
    have htrlp : trl = (buildLatentInput args b bo.scaled_noisy_latent_image
        a.scaled_latent_conditioning_image).2 := (congrArg Prod.snd hbuild).symm
    have htrl : tracedRandint trl = [] := by
      rw [htrlp, buildLatentInput_tracedRandint]
    have htrup : tru = (runUnet m args b bo.latent_input bo.timestep
        bo.text_encoder_output).2 := (congrArg Prod.snd hunet).symm
    have htru : tracedRandint tru = [] := by
      rw [htrup, runUnet_tracedRandint]
    have htrD2 : tracedRandint trD = [] := by
      rcases hdbg with ⟨_, hdp⟩ | ⟨_, hdp⟩
      · have : trD = (debugPass m args sv a bo).2 := (congrArg Prod.snd hdp).symm
        rw [this, debugPass_tracedRandint]
      · rw [hdp]
        rfl
    simp [tracedRandint_append, tracedRandint_cons_readKey, tracedRandint_cons_randint,
      htrc2, htrn2, htrl, htru, htrD2, hts]
  · simp [torchGlobalRandint]
  · intro x hx
    simp only [torchGlobalRandint, List.mem_map, List.mem_range] at hx
    obtain ⟨i, hi, hxe⟩ := hx
    subst hxe
    have hpos2 : 0 < (⌊(m.noise_scheduler.num_train_timesteps : ℚ)
        * args.max_noising_strength⌋).toNat := by omega
    have hlt := Nat.mod_lt (lcgMix gr i) hpos2
    omega

/-- Witness for C2 at the concrete plain run: the range bound is positive,
the trace holds exactly the drawn sequence, with one draw per batch element,
each below the floor bound. -/
theorem predict_timestep_sampling_witness :
    0 < ⌊(mW.noise_scheduler.num_train_timesteps : ℚ) * argsW.max_noising_strength⌋ ∧
    tracedRandint trW0
      = [torchGlobalRandint 0
          (⌊(mW.noise_scheduler.num_train_timesteps : ℚ)
            * argsW.max_noising_strength⌋).toNat 2] ∧
    (torchGlobalRandint 0
        (⌊(mW.noise_scheduler.num_train_timesteps : ℚ)
          * argsW.max_noising_strength⌋).toNat 2).length = 2 ∧
    ∀ x ∈ torchGlobalRandint 0
        (⌊(mW.noise_scheduler.num_train_timesteps : ℚ)
          * argsW.max_noising_strength⌋).toNat 2,
      (x : ℤ) < ⌊(mW.noise_scheduler.num_train_timesteps : ℚ)
        * argsW.max_noising_strength⌋ := by
  have h0 : predict mW bW argsW 0 0 svT = (.ok (pW0, nW0), trW0) := by
    rw [predict_run_plain 0 0 svT, show torchGlobalRandint 0 1000 2 = tsW0 from by decide]
    rfl
  exact predict_timestep_sampling mW bW argsW 0 0 svT pW0 nW0 trW0
    (.input "latent_image" [2, 4, 8, 8]) 2 [4, 8, 8] rfl rfl
    (by norm_num [argsW]) h0

/-- Counterexample to C2 as stated: two runs with identical bundle, batch,
configuration (hence identical globalStep and identical seeded generator)
and identical ambient fresh-generator state, differing only in the state of
the process-global RNG, draw different timesteps - the draw is therefore not
deterministic given the generator seeded from `trainProgress.globalStep`. -/
theorem predict_timestep_global_rng_counterexample :
    predict mW bW argsW 0 0 svT = (.ok (pW0, nW0), trW0) ∧
      predict mW bW argsW 0 1 svT = (.ok (pW1, nW1), trW1) ∧
      tracedRandint trW0 ≠ tracedRandint trW1 := by
  refine ⟨?_, ?_, by decide⟩
  · rw [predict_run_plain 0 0 svT, show torchGlobalRandint 0 1000 2 = tsW0 from by decide]
    rfl
  · rw [predict_run_plain 0 1 svT, show torchGlobalRandint 1 1000 2 = tsW1 from by decide]
    rfl

theorem predict_comp_stageA_error {m : StableDiffusionModel} {b : Batch}
    {args : TrainArgs} {g0 gr : Nat} {sv : String → Bool} {e : PredictErr}
    {trA : List Eff} (hA : stageA m b args g0 = (.error e, trA)) :
    predict m b args g0 gr sv = (.error e, trA) := by
  simp [predict, PStep.bind, hA]

theorem predict_comp_nodebug {m : StableDiffusionModel} {b : Batch}
    {args : TrainArgs} {g0 gr : Nat} {sv : String → Bool} {a : AOut}
    {trA : List Eff} {bo : BOut} {trB : List Eff}
    (hA : stageA m b args g0 = (.ok a, trA))
    (hB : stageB m b args gr a = (.ok bo, trB))
    (hdm : args.debug_mode = false) :
    (predict m b args g0 gr sv).1 = .ok (bo.predicted_latent_noise, a.latent_noise) := by
  simp [predict, PStep.bind, hA, hB, hdm]

theorem predict_comp_debug_ok {m : StableDiffusionModel} {b : Batch}
    {args : TrainArgs} {g0 gr : Nat} {sv : String → Bool} {a : AOut}
    {trA : List Eff} {bo : BOut} {trB : List Eff}
    (hA : stageA m b args g0 = (.ok a, trA))
    (hB : stageB m b args gr a = (.ok bo, trB))
    (hdm : args.debug_mode = true)
    (hD : (debugPass m args sv a bo).1 = .ok ()) :
    (predict m b args g0 gr sv).1 = .ok (bo.predicted_latent_noise, a.latent_noise) := by
  rcases hDp : debugPass m args sv a bo with ⟨rd, trD⟩
  rw [hDp] at hD
  simp only at hD
  subst hD
  simp [predict, PStep.bind, hA, hB, hdm, hDp]

/-- Claim C3 (amended): when every debug image write succeeds (and the
bundle model type agrees with the configured one), enabling `debugMode`
never changes the returned result of `predict`; but debug output is NOT
exception-isolated in the code, so a failing debug write aborts the call
(see the counterexample). -/
theorem predict_debug_best_effort (m : StableDiffusionModel) (b : Batch)
    (mt : ModelType) (tte : Bool) (w s : ℚ) (dev dt dd : String)
    (g0 gr : Nat) (sv : String → Bool)
    (hsv : ∀ pth, sv pth = true) (hmt : m.model_type = mt) :
    (predict m b ⟨mt, tte, w, s, dev, dt, true, dd⟩ g0 gr sv).1
      = (predict m b ⟨mt, tte, w, s, dev, dt, false, dd⟩ g0 gr sv).1 := by
  have hAeq : stageA m b ⟨mt, tte, w, s, dev, dt, true, dd⟩ g0
      = stageA m b ⟨mt, tte, w, s, dev, dt, false, dd⟩ g0 := rfl
  have hBeq : ∀ a, stageB m b ⟨mt, tte, w, s, dev, dt, true, dd⟩ gr a
      = stageB m b ⟨mt, tte, w, s, dev, dt, false, dd⟩ gr a := fun _ => rfl
  rcases hAv : stageA m b ⟨mt, tte, w, s, dev, dt, false, dd⟩ g0 with ⟨r1, trA⟩
  cases r1 with
  | error e =>
    rw [predict_comp_stageA_error (hAeq.trans hAv),
      predict_comp_stageA_error hAv]
  | ok a =>
    rcases hBv : stageB m b ⟨mt, tte, w, s, dev, dt, false, dd⟩ gr a with ⟨r2, trB⟩
    cases r2 with
    | error e =>
      rw [predict_comp_stageB_error (hAeq.trans hAv) ((hBeq a).trans hBv),
        predict_comp_stageB_error hAv hBv]
    | ok bo =>
      have hcondsome : m.model_type.has_conditioning_image_input = true →
          ∃ ci, a.latent_conditioning_image = some ci := by
        intro hc
        obtain ⟨hli, hsc, hshape, trc, trn, hrc, hdn, htrA⟩ := stageA_eq_ok hAv
        rcases readCond_eq_ok hrc with ⟨hcf, c, hbc, hlc, _⟩ | ⟨hcf, hlc, _⟩
        · exact ⟨c, congrArg Prod.fst hlc⟩
        · rw [hmt] at hc
          simp only at hcf
          rw [hc] at hcf
          exact absurd hcf (by simp)
      have hD : (debugPass m ⟨mt, tte, w, s, dev, dt, true, dd⟩ sv a bo).1 = .ok () :=
        debugPass_ok hsv hcondsome
      rw [predict_comp_debug_ok (hAeq.trans hAv) ((hBeq a).trans hBv) rfl hD,
        predict_comp_nodebug hAv hBv rfl]

/-- Debug-enabled configuration. -/
def argsDbg : TrainArgs :=
  ⟨ModelType.STABLE_DIFFUSION_15, false, 0, 1, "cuda", "float32", true, "debug"⟩

/-- A debug write environment in which every write fails. -/
def svF : String → Bool := fun _ => false

/-- The path of the first debug image of the concrete debug run. -/
def dbgPath : String := "debug/training_batches/step-5-1-noise.png"

/-- Intermediate state of the concrete debug run after lines 86-104. -/
def aDbg : AOut :=
  ⟨.input "latent_image" [2, 4, 8, 8], scaledW, none, none, [2, 4, 8, 8], nW0⟩

/-- Intermediate state of the concrete debug run after lines 106-125. -/
def boDbg : BOut :=
  ⟨tsW0, .addNoise 2 scaledW nW0 tsW0, .textEnc 3 (.input "tokens" [2, 77]),
    .addNoise 2 scaledW nW0 tsW0, pW0⟩

/-- Counterexample to C3 as stated: with debugMode enabled and a failing
image write, the call aborts with a save error - the debug block of lines
127-167 has no exception handler - while the identical call with debugMode
disabled returns the prediction. -/
theorem predict_debug_failure_aborts_counterexample :
    (predict mW bW argsDbg 0 0 svF).1 = .error (.saveError dbgPath) ∧
      (predict mW bW argsW 0 0 svF).1 = .ok (pW0, nW0) := by
  constructor
  · have hA : stageA mW bW argsDbg 0
        = (.ok aDbg, [.readKey "latent_image", .randn [2, 4, 8, 8]]) := by decide
    have hB : stageB mW bW argsDbg 0 aDbg
        = (.ok boDbg, [.randint tsW0, .readKey "tokens", .unet]) := by
      simp [stageB, sampleGlobalTimestep, buildLatentInput, runUnet, PStep.bind,
        PStep.readBatchKey, mW, bW, argsDbg, aDbg, boDbg, scaledW, nW0, pW0, tsW0,
        ModelType.has_mask_input, ModelType.has_conditioning_image_input,
        ModelType.has_depth_input, pyInt_1000,
        show torchGlobalRandint 0 1000 2 = [345, 690] from by decide]
    have hD : debugPass mW argsDbg svF aDbg boDbg
        = (.error (.saveError dbgPath), [.save dbgPath]) := rfl
    simp [predict, PStep.bind, hA, hB, hD, show argsDbg.debug_mode = true from rfl]
  · rw [predict_run_plain 0 0 svF, show torchGlobalRandint 0 1000 2 = tsW0 from by decide]
    rfl

/-- Witness for C3: at a concrete run with all debug writes succeeding,
enabling debugMode leaves the returned result unchanged. -/
theorem predict_debug_best_effort_witness :
    (predict mW bW ⟨ModelType.STABLE_DIFFUSION_15, false, 0, 1, "cuda", "float32",
        true, "debug"⟩ 0 0 svT).1
      = (predict mW bW ⟨ModelType.STABLE_DIFFUSION_15, false, 0, 1, "cuda", "float32",
        false, "debug"⟩ 0 0 svT).1 :=
  predict_debug_best_effort mW bW ModelType.STABLE_DIFFUSION_15 false 0 1 "cuda"
    "float32" "debug" 0 0 svT (fun _ => rfl) rfl

/-- The batch keys `predict` may read, as a function of the configured model
type capability flags (spec section 3 invariant). -/
def requiredKeys (mt : ModelType) : List String :=
  ["latent_image", "tokens"]
    ++ (if mt.has_conditioning_image_input then ["latent_conditioning_image"] else [])
    ++ (if mt.has_mask_input && mt.has_conditioning_image_input then ["latent_mask"] else [])
    ++ (if mt.has_depth_input then ["latent_depth"] else [])

theorem mem_requiredKeys {mt : ModelType} {k : String} :
    k ∈ requiredKeys mt ↔
      k = "latent_image" ∨ k = "tokens"
      ∨ (mt.has_conditioning_image_input = true ∧ k = "latent_conditioning_image")
      ∨ ((mt.has_mask_input && mt.has_conditioning_image_input) = true ∧ k = "latent_mask")
      ∨ (mt.has_depth_input = true ∧ k = "latent_depth") := by
  cases h1 : mt.has_conditioning_image_input <;>
    cases h2 : mt.has_mask_input <;>
      cases h3 : mt.has_depth_input <;>
        simp [requiredKeys, h1, h2, h3, or_assoc]

theorem Batch.get_latent_image (b : Batch) : b.get "latent_image" = b.latent_image := rfl

theorem Batch.get_latent_conditioning_image (b : Batch) :
    b.get "latent_conditioning_image" = b.latent_conditioning_image := by
  simp [Batch.get]

theorem Batch.get_latent_mask (b : Batch) : b.get "latent_mask" = b.latent_mask := by
  simp [Batch.get]

theorem Batch.get_latent_depth (b : Batch) : b.get "latent_depth" = b.latent_depth := by
  simp [Batch.get]

theorem Batch.get_tokens (b : Batch) : b.get "tokens" = b.tokens := by
  simp [Batch.get]

/-- Claim C7: `predict` reads exactly the batch fields implied by the
configured model type capability flags and no others: latent image and
tokens always, the conditioning image iff the conditioning flag, the mask
iff both mask and conditioning flags (the concat branch), the depth latent
iff the depth flag.  Batches agreeing on the required keys give identical
results (removing an unused field never changes anything), every key read in
any run is required, and a successful run implies every required key was
present (removing a used field makes the call fail). -/
theorem predict_reads_exactly_required (m : StableDiffusionModel) (b b' : Batch)
    (args : TrainArgs) (g0 gr : Nat) (sv : String → Bool) :
    ((∀ k ∈ requiredKeys args.model_type, b.get k = b'.get k) →
      predict m b args g0 gr sv = predict m b' args g0 gr sv) ∧
    (∀ k, Eff.readKey k ∈ (predict m b args g0 gr sv).2 →
      k ∈ requiredKeys args.model_type) ∧
    (∀ p n tr, predict m b args g0 gr sv = (.ok (p, n), tr) →
      ∀ k ∈ requiredKeys args.model_type, (b.get k).isSome = true) := by
  refine ⟨?_, ?_, ?_⟩
  · intro hag
    apply predict_congr
    · have := hag "latent_image" (mem_requiredKeys.mpr (Or.inl rfl))
      simpa [Batch.get_latent_image] using this
    · intro hc
      have := hag "latent_conditioning_image"
        (mem_requiredKeys.mpr (Or.inr (Or.inr (Or.inl ⟨hc, rfl⟩))))
      simpa [Batch.get_latent_conditioning_image] using this
    · have := hag "tokens" (mem_requiredKeys.mpr (Or.inr (Or.inl rfl)))
      simpa [Batch.get_tokens] using this
    · intro hmc
      have := hag "latent_mask"
        (mem_requiredKeys.mpr (Or.inr (Or.inr (Or.inr (Or.inl ⟨hmc, rfl⟩)))))
      simpa [Batch.get_latent_mask] using this
    · intro hd
      have := hag "latent_depth"
        (mem_requiredKeys.mpr (Or.inr (Or.inr (Or.inr (Or.inr ⟨hd, rfl⟩)))))
      simpa [Batch.get_latent_depth] using this
  · intro k hk
    rcases predict_events hk with h | ⟨hc, h⟩ | h | ⟨hmc, h⟩ | ⟨hd, h⟩ | ⟨sh, h⟩ |
        ⟨ts, h⟩ | h | ⟨pth, h⟩
    · injection h with h2
      exact mem_requiredKeys.mpr (Or.inl h2)
    · injection h with h2
      exact mem_requiredKeys.mpr (Or.inr (Or.inr (Or.inl ⟨hc, h2⟩)))
    · injection h with h2
      exact mem_requiredKeys.mpr (Or.inr (Or.inl h2))
    · injection h with h2
      exact mem_requiredKeys.mpr (Or.inr (Or.inr (Or.inr (Or.inl ⟨hmc, h2⟩))))
    · injection h with h2
      exact mem_requiredKeys.mpr (Or.inr (Or.inr (Or.inr (Or.inr ⟨hd, h2⟩))))
    · exact absurd h (by simp)
    · exact absurd h (by simp)
    · exact absurd h (by simp)
    · exact absurd h (by simp)
  · intro p n tr hrun k hk
    obtain ⟨a, trA, bo, trB, trD, hA, hB, hp, hn, htr, hdbg⟩ := predict_eq_ok hrun
    obtain ⟨hli, hsc, hshape, trc, trn, hrc, hdn, htrA⟩ := stageA_eq_ok hA
    obtain ⟨trl, tru, hsample, hnoisy, htok, hbuild, hunet, htrB⟩ := stageB_eq_ok hB
    rcases mem_requiredKeys.mp hk with h | h | ⟨hc, h⟩ | ⟨hmc, h⟩ | ⟨hd, h⟩ <;> subst h
    · rw [Batch.get_latent_image, hli]
      rfl
    · obtain ⟨tok, htok2, _⟩ := htok
      rw [Batch.get_tokens, htok2]
      rfl
    · rcases readCond_eq_ok hrc with ⟨hcf, c, hbc, _⟩ | ⟨hcf, _⟩
      · rw [Batch.get_latent_conditioning_image, hbc]
        rfl
      · rw [hc] at hcf
        exact absurd hcf (by simp)
    · rcases buildLatentInput_eq_ok hbuild with ⟨hmf, mk, slc, hbm, _⟩ | ⟨hmf, _⟩
      · rw [Batch.get_latent_mask, hbm]
        rfl
      · rw [hmc] at hmf
        exact absurd hmf (by simp)
    · rcases runUnet_eq_ok hunet with ⟨hdf, d, hbd, _⟩ | ⟨hdf, _⟩
      · rw [Batch.get_latent_depth, hbd]
        rfl
      · rw [hd] at hdf
        exact absurd hdf (by simp)

/-- A batch like `bW` with extra fields populated that the plain SD 1.5
model type never reads. -/
def bW2 : Batch :=
  ⟨some (.input "latent_image" [2, 4, 8, 8]), some (.input "junk1" [1]),
    some (.input "junk2" [1]), some (.input "junk3" [1]),
    some (.input "tokens" [2, 77])⟩

/-- Witness for C7: the concrete batches agree on the required keys of the
plain model type and differ on all unused fields, yet the runs coincide. -/
theorem predict_reads_exactly_required_witness :
    predict mW bW argsW 0 0 svT = predict mW bW2 argsW 0 0 svT :=
  (predict_reads_exactly_required mW bW bW2 argsW 0 0 svT).1 (by decide)
